import Mathlib

/-!
Shallow embedding of the InterDex packer (`src/opt/interdex/InterDex.cpp`)
and proofs about the properties claimed in its specification.

Modelling conventions:
* `DexClass` carries exactly the observable attributes the packer consumes
  (spec section 3): descriptor name, interface flag, optional super-class
  name, method/field counts, gathered method/field refs, the renameable
  predicate, the class ids referenced from its methods' instructions, and
  the class ids obtained from `gather_types`.
* Method refs, field refs, types and class identities are opaque and
  hashable by identity in the source; they are modelled as `Nat` ids.
  `DexClass.id` plays the role of the object address, so the pointer sets
  (`det.emitted`, `cold_cold_references`, ...) become `Finset Nat` of ids.
* C++ `unsigned` arithmetic in `estimate_linear_alloc` is modelled as `Nat`
  arithmetic reduced mod `2 ^ 32`.
* `always_assert_log` aborts become `Except.error`.
* The iteration order of the pointer-keyed `std::unordered_set`
  `coldstart_classes` is unspecified in C++; it is modelled by an explicit
  `reorder` parameter applied to the insertion-ordered list.
* The `while` loop of `find_unrefenced_coldstart_classes` is modelled with
  an explicit fuel parameter; `none` means the loop did not reach its
  stopping condition within `fuel` iterations.
-/

namespace interdex

/-- A class as observed by the packer (spec section 3, "Class").  `id` models
the object identity (the `DexClass*` pointer value). -/
structure DexClass where
  id : Nat
  name : String
  isInterface : Bool
  superName : Option String
  dmethods : Nat
  vmethods : Nat
  ifields : Nat
  gatherMethods : List Nat
  gatherFields : List Nat
  canRename : Bool
  insnRefs : List Nat
  typeRefs : List Nat
  deriving DecidableEq, Repr

/-- `ends_with` from `StringUtil.h` (external helper): suffix test on the
character data of the strings. -/
def ends_with (s suffix : String) : Bool :=
  suffix.data.isSuffixOf s.data

/-- Substring containment, modelling `std::string::find(pat) != npos`. -/
def str_contains (s pat : String) : Bool :=
  (List.range (s.data.length + 1)).any (fun i => pat.data.isPrefixOf (s.data.drop i))

/-- `kMaxMethodRefs = ((64 * 1024) - 1)` (InterDex.cpp line 72). -/
def kMaxMethodRefs : Nat := 64 * 1024 - 1

/-- `kMaxFieldRefs = 64 * 1024 - 1` (InterDex.cpp line 73). -/
def kMaxFieldRefs : Nat := 64 * 1024 - 1

/-- `kCanaryStart` models `kCanaryPrefix = "Lsecondary/dex"` (line 74). -/
def kCanaryStart : String := "Lsecondary/dex"

/-- `kMaxDexNum = 99` (line 77). -/
def kMaxDexNum : Nat := 99

/-- `is_canary` (lines 141-144): does the class descriptor start with
`Lsecondary/dex`? -/
def is_canary (clazz : DexClass) : Bool :=
  kCanaryStart.data.isPrefixOf clazz.name.data

/-- The penalty pattern table `kPatterns` (lines 153-158), in declaration
order. -/
def kPatterns : List (String × Nat) :=
  [("Layout;", 1500), ("View;", 1500), ("ViewGroup;", 1800), ("Activity;", 1500)]

def kObjectVtable : Nat := 48
def kMethodSize : Nat := 52
def kInstanceFieldSize : Nat := 16
def kVtableSlotSize : Nat := 4

/-- `matches_penalty` (lines 165-173): first pattern whose suffix matches,
returning its penalty. -/
def matches_penalty (str : String) : Option Nat :=
  (kPatterns.find? (fun p => ends_with str p.1)).map (·.2)

/-- The vtable penalty computation inlined in `estimate_linear_alloc`
(lines 183-190): start from `kObjectVtable`; if the class name does not
match and a super class exists, try the super class name. -/
def vtablePenalty (clazz : DexClass) : Nat :=
  match matches_penalty clazz.name with
  | some pen => pen
  | none =>
    match clazz.superName with
    | some sup => (matches_penalty sup).getD kObjectVtable
    | none => kObjectVtable

/-- `estimate_linear_alloc` (lines 178-201).  The accumulations happen in a
C++ `unsigned`, hence the result is reduced mod `2 ^ 32`. -/
def estimate_linear_alloc (clazz : DexClass) : Nat :=
  ((if clazz.isInterface then 0 else vtablePenalty clazz + clazz.vmethods * kVtableSlotSize)
    + clazz.dmethods * kMethodSize
    + clazz.vmethods * kMethodSize
    + clazz.ifields * kInstanceFieldSize) % 4294967296

/-- The spec's suffix table (spec section 4.2): `Layout;`, `View;`,
`Activity;` map to 1500 and `ViewGroup;` to 1800, first match over the
fixed ordered list with endswith semantics. -/
def spec_suffix_penalty (name : String) : Option Nat :=
  (([("Layout;", 1500), ("View;", 1500), ("ViewGroup;", 1800), ("Activity;", 1500)] :
      List (String × Nat)).find? (fun p => ends_with name p.1)).map (·.2)

/-- The spec's `vtable_penalty(C)` (spec section 4.2): start with 48; if C's
descriptor ends with one of the suffixes use that penalty; otherwise, if C
has a super-class, re-apply the same suffix table to the super-class name;
otherwise keep 48. -/
def spec_vtable_penalty (clazz : DexClass) : Nat :=
  match spec_suffix_penalty clazz.name with
  | some pen => pen
  | none =>
    match clazz.superName with
    | some sup =>
      match spec_suffix_penalty sup with
      | some pen => pen
      | none => 48
    | none => 48

/-- The spec's cost model (spec section 4.2):
`LA(C) = (C interface ? 0 : vtable_penalty(C) + |vmethods| * 4)
       + (|dmethods| + |vmethods|) * 52 + |ifields| * 16`. -/
def spec_linear_alloc (clazz : DexClass) : Nat :=
  (if clazz.isInterface then 0 else spec_vtable_penalty clazz + clazz.vmethods * 4)
    + (clazz.dmethods + clazz.vmethods) * 52
    + clazz.ifields * 16

theorem vtablePenalty_eq_spec (c : DexClass) : vtablePenalty c = spec_vtable_penalty c := by
  have h : matches_penalty = spec_suffix_penalty := rfl
  unfold vtablePenalty spec_vtable_penalty
  rw [h]
  cases h1 : spec_suffix_penalty c.name with
  | some pen => rfl
  | none =>
    cases hs : c.superName with
    | none => rfl
    | some sup => cases h2 : spec_suffix_penalty sup <;> simp [h2, kObjectVtable]

/-- C4: for every class C (whose cost fits in an unsigned, as it always does
in practice), `estimate_linear_alloc` equals the spec's cost model: an
interface contributes neither the vtable penalty nor the 4-byte vtable
slots; otherwise the penalty starts at 48 and is replaced by the first
matching suffix penalty, applied to the class's own name and otherwise to
its super-class name; plus 52 per direct and per virtual method and 16 per
instance field.  A name ending in `ViewGroup;` receives 1800 under the
endswith matching even though `View;` precedes it in the table. -/
theorem c4_estimate_linear_alloc_matches_spec :
    (∀ c : DexClass, spec_linear_alloc c < 4294967296 →
      estimate_linear_alloc c = spec_linear_alloc c)
    ∧ matches_penalty "LFooViewGroup;" = some 1800 := by
  constructor
  · intro c h
    have raw_eq :
        (if c.isInterface then 0 else vtablePenalty c + c.vmethods * kVtableSlotSize)
          + c.dmethods * kMethodSize + c.vmethods * kMethodSize
          + c.ifields * kInstanceFieldSize = spec_linear_alloc c := by
      unfold spec_linear_alloc kVtableSlotSize kMethodSize kInstanceFieldSize
      rw [vtablePenalty_eq_spec c]
      cases c.isInterface <;> simp <;> ring
    unfold estimate_linear_alloc
    rw [raw_eq, Nat.mod_eq_of_lt h]
  · decide

def c4ExampleClass : DexClass :=
  ⟨1, "LFooViewGroup;", false, none, 2, 3, 1, [], [], true, [], []⟩

theorem c4_estimate_linear_alloc_matches_spec_witness :
    spec_linear_alloc c4ExampleClass < 4294967296 ∧
      estimate_linear_alloc c4ExampleClass = spec_linear_alloc c4ExampleClass :=
  ⟨by decide, c4_estimate_linear_alloc_matches_spec.1 c4ExampleClass (by decide)⟩

instance {ε α : Type} [DecidableEq ε] [DecidableEq α] : DecidableEq (Except ε α) := fun a b =>
  match a, b with
  | .error e, .error e' => if h : e = e' then .isTrue (by rw [h]) else .isFalse (by simp [h])
  | .ok x, .ok y => if h : x = y then .isTrue (by rw [h]) else .isFalse (by simp [h])
  | .error _, .ok _ => .isFalse (by simp)
  | .ok _, .error _ => .isFalse (by simp)

/-- A plugin, as consumed by the packer (spec section 6): it may veto a
class, contribute extra refs for a class, contribute additional classes at
flush time, and contribute leftover classes at the end of the run. -/
structure InterDexPassPlugin where
  should_skip_class : DexClass → Bool := fun _ => false
  gather_mrefs : DexClass → List Nat × List Nat := fun _ => ([], [])
  additional_classes : List (List DexClass) → List DexClass → List DexClass := fun _ _ => []
  leftover_classes : List DexClass := []

/-- The emit tracker `dex_emit_tracker`.  Modelled from the spec: the struct
itself is declared in `InterDex.h`, which is not among the sources; spec
section 3 "EmitTracker" lists its fields (ordered pending list `outs`,
unique ref sets `mrefs`/`frefs`, accumulated `la_size`, the name-to-class
index `clookup` and the cross-bin pointer set `emitted`), matching every
use in `InterDex.cpp`. -/
structure dex_emit_tracker where
  outs : List DexClass := []
  mrefs : Finset Nat := ∅
  frefs : Finset Nat := ∅
  la_size : Nat := 0
  clookup : List (String × DexClass) := []
  emitted : Finset Nat := ∅
  deriving DecidableEq

/-- `start_new_dex` (spec section 4.4 `start_new_bin`): clears `outs`,
`mrefs`, `frefs` and `la_size`, retaining `clookup` and `emitted`. -/
def dex_emit_tracker.start_new_dex (det : dex_emit_tracker) : dex_emit_tracker :=
  { det with outs := [], mrefs := ∅, frefs := ∅, la_size := 0 }

/-- Lookup in the name-to-class index.  Insertions into the C++
`unordered_map` overwrite, so the last binding for a name wins. -/
def lookup_name (l : List (String × DexClass)) (n : String) : Option DexClass :=
  (l.reverse.find? (fun p => p.1 == n)).map (·.2)

/-- The per-bin flag set `DexConfig` (spec section 3 "BinConfig"; declared
in `InterDex.h`). -/
structure DexConfig where
  is_coldstart : Bool := false
  is_extended_set : Bool := false
  has_scroll_cls : Bool := false
  deriving DecidableEq, Repr

/-- `DexConfig::reset` (spec section 3: flags are reset on transition to a
new bin). -/
def DexConfig.reset (_d : DexConfig) : DexConfig := {}

/-- `InterDex::s_empty_config` (line 302). -/
def s_empty_config : DexConfig := {}

/-- The mixed-mode bookkeeping (spec section 3 "MixedModeInfo"; declared
outside the sources): a list of predefined classes in insertion order, the
two touch capabilities and the three status flags. -/
structure MixedModeInfo where
  mixedModeClasses : List DexClass := []
  canTouchColdstartSet : Bool := false
  canTouchColdstartExtendedSet : Bool := false
  statusFirstColdstartDex : Bool := false
  statusFirstExtendedDex : Bool := false
  statusScrollDex : Bool := false
  deriving DecidableEq, Repr

def MixedModeInfo.is_mixed_mode_class (m : MixedModeInfo) (c : DexClass) : Bool :=
  m.mixedModeClasses.contains c

def MixedModeInfo.remove_mixed_mode_class (m : MixedModeInfo) (c : DexClass) : MixedModeInfo :=
  { m with mixedModeClasses := m.mixedModeClasses.filter (fun x => x != c) }

def MixedModeInfo.has_predefined_classes (m : MixedModeInfo) : Bool :=
  !m.mixedModeClasses.isEmpty

/-- The configuration of one `InterDex` run: constructor arguments and
config flags (spec section 6 "Inputs").  The iteration order of the
pointer-keyed `std::unordered_set` `coldstart_classes` in the pruner is not
part of the configuration - C++ leaves it unspecified - and is therefore a
separate `reorder` argument of `run`. -/
structure InterDexCfg where
  dexen : List (List DexClass)
  coldstart_list : List String
  plugins : List InterDexPassPlugin
  linear_alloc_limit : Nat
  static_prune_classes : Bool
  normal_primary_dex : Bool
  emit_canaries : Bool
  emit_scroll_set_marker : Bool
  mixed_mode_info : MixedModeInfo

/-- The mutable members of `InterDex` written by a run, together with the
output vector and the `mixed_mode.txt` asset file contents. -/
structure InterDexSt where
  det : dex_emit_tracker := {}
  outdex : List (List DexClass) := []
  mixed_mode_info : MixedModeInfo := {}
  secondary_dexes : Nat := 0
  coldstart_dexes : Nat := 0
  extended_set_dexes : Nat := 0
  scroll_dexes : Nat := 0
  num_mixed_mode_dexes : Nat := 0
  cold_start_set_dex_count : Nat := 0
  scroll_set_dex_count : Nat := 1000
  cls_skipped_in_primary : Nat := 0
  cls_skipped_in_secondary : Nat := 0
  mixed_mode_file : List String := []
  deriving DecidableEq

/-- `gather_refs` (lines 40-54): the class's own gathered method and field
refs together with every plugin's contributions, as identity sets. -/
def gather_refs (plugins : List InterDexPassPlugin) (cls : DexClass) : Finset Nat × Finset Nat :=
  ((cls.gatherMethods ++ (plugins.map (fun p => (p.gather_mrefs cls).1)).flatten).toFinset,
   (cls.gatherFields ++ (plugins.map (fun p => (p.gather_mrefs cls).2)).flatten).toFinset)

/-- `set_difference` (lines 60-70): the elements of `a` not in `b`. -/
def set_difference (a b : Finset Nat) : Finset Nat :=
  a.filter (fun v => v ∉ b)

/-- `should_skip_class` (lines 203-212). -/
def should_skip_class (plugins : List InterDexPassPlugin) (clazz : DexClass) : Bool :=
  plugins.any (fun p => p.should_skip_class clazz)

/-- The canary descriptor `snprintf(buf, _, "Lsecondary/dex%02d/Canary;",
dexnum)` (lines 644-645).  `%02d` zero-pads to two digits; `dexnum` is at
most `kMaxDexNum = 99` at every use (asserted just before), for which the
two-digit rendering below is exact. -/
def canary_name (dexnum : Nat) : String :=
  ⟨kCanaryStart.data ++ [Nat.digitChar (dexnum / 10), Nat.digitChar (dexnum % 10)]
    ++ "/Canary;".data⟩

/-- The synthetic canary class materialised when no class of the canary
name exists (lines 649-657): a `public | interface | abstract` class whose
super class is `java/lang/Object`.  The id 0 models the fresh allocation. -/
def make_canary_class (nm : String) : DexClass :=
  ⟨0, nm, true, some "Ljava/lang/Object;", 0, 0, 0, [], [], false, [], []⟩

/-- `InterDex::is_mixed_mode_dex` (lines 804-821). -/
def is_mixed_mode_dex (st : InterDexSt) (dconfig : DexConfig) : Bool :=
  (st.coldstart_dexes == 0 && dconfig.is_coldstart && st.mixed_mode_info.statusFirstColdstartDex)
  || (st.extended_set_dexes == 0 && dconfig.is_extended_set
      && st.mixed_mode_info.statusFirstExtendedDex)
  || (st.scroll_dexes == 0 && dconfig.has_scroll_cls && st.mixed_mode_info.statusScrollDex)

/-- `InterDex::flush_out_dex` (lines 584-607): seal the pending list into a
bin unconditionally, appending plugin-provided additional classes (which
are also recorded in `emitted`), then start a new bin.  The ref-count
sanity check (lines 101-139) only traces and is not modelled. -/
def flush_out_dex (cfg : InterDexCfg) (st : InterDexSt) : InterDexSt :=
  let withPlugins := cfg.plugins.foldl
    (fun (acc : List DexClass × Finset Nat) p =>
      let adds := p.additional_classes st.outdex st.det.outs
      (acc.1 ++ adds, acc.2 ∪ (adds.map (·.id)).toFinset))
    (st.det.outs, st.det.emitted)
  { st with det := dex_emit_tracker.start_new_dex { st.det with emitted := withPlugins.2 },
            outdex := st.outdex ++ [withPlugins.1] }

/-- `InterDex::flush_out_secondary` (lines 609-681): return unchanged on an
empty pending list; otherwise fold `is_mixed_mode_dex` into the mixed flag,
bump the secondary counters, and - when canaries are emitted - append the
canary class for `outdex.size()` (asserting the dex number stays within
`kMaxDexNum`), record a mixed-mode bin in `mixed_mode.txt` (asserting it is
the first one), and seal the bin via `flush_out_dex`. -/
def flush_out_secondary (cfg : InterDexCfg) (st : InterDexSt) (dconfig : DexConfig)
    (mixed_mode_dex : Bool) : Except String InterDexSt :=
  if st.det.outs = [] then .ok st
  else
    let mixed := mixed_mode_dex || is_mixed_mode_dex st dconfig
    let st := { st with
      secondary_dexes := st.secondary_dexes + 1,
      coldstart_dexes := st.coldstart_dexes + (if dconfig.is_coldstart then 1 else 0),
      extended_set_dexes := st.extended_set_dexes + (if dconfig.is_extended_set then 1 else 0),
      scroll_dexes := st.scroll_dexes + (if dconfig.has_scroll_cls then 1 else 0) }
    if cfg.emit_canaries then
      let dexnum := st.outdex.length
      if dexnum > kMaxDexNum then .error "Bailing, Max dex number surpassed"
      else
        let canaryname := canary_name dexnum
        let canary_cls := match lookup_name st.det.clookup canaryname with
          | some clazz => clazz
          | none => make_canary_class canaryname
        let st := { st with det := { st.det with outs := st.det.outs ++ [canary_cls] } }
        if mixed then
          if st.num_mixed_mode_dexes ≠ 0 then .error "For now we only accept 1 mixed mode dex."
          else .ok (flush_out_dex cfg { st with
            num_mixed_mode_dexes := st.num_mixed_mode_dexes + 1,
            mixed_mode_file := st.mixed_mode_file ++ [canaryname] })
        else .ok (flush_out_dex cfg st)
    else .ok (flush_out_dex cfg st)

/-- The overflow test of `emit_class` (lines 717-720): the linear-alloc
budget would be exceeded, or the method/field ref count would reach
`kMaxMethodRefs`/`kMaxFieldRefs` (note the non-strict comparisons). -/
def emit_overflow (cfg : InterDexCfg) (det : dex_emit_tracker) (clazz : DexClass) : Prop :=
  det.la_size + estimate_linear_alloc clazz > cfg.linear_alloc_limit
  ∨ det.mrefs.card + (set_difference (gather_refs cfg.plugins clazz).1 det.mrefs).card
      ≥ kMaxMethodRefs
  ∨ det.frefs.card + (set_difference (gather_refs cfg.plugins clazz).2 det.frefs).card
      ≥ kMaxFieldRefs

instance (cfg : InterDexCfg) (det : dex_emit_tracker) (clazz : DexClass) :
    Decidable (emit_overflow cfg det clazz) := by
  unfold emit_overflow; infer_instance

/-- The state update of `emit_class` once the class is accepted (lines
734-739): union the gathered refs, add the linear-alloc estimate, append
the class to `outs` and record it in `emitted`. -/
def emit_update (cfg : InterDexCfg) (st : InterDexSt) (clazz : DexClass) : InterDexSt :=
  { st with det := { st.det with
      mrefs := st.det.mrefs ∪ (gather_refs cfg.plugins clazz).1,
      frefs := st.det.frefs ∪ (gather_refs cfg.plugins clazz).2,
      la_size := st.det.la_size + estimate_linear_alloc clazz,
      outs := st.det.outs ++ [clazz],
      emitted := insert clazz.id st.det.emitted } }

/-- `InterDex::emit_class` (lines 687-740): skip already-emitted classes
and canaries; consult plugins and the mixed-mode set when `check_if_skip`;
on overflow abort for the primary dex and flush the secondary otherwise;
then accept the class. -/
def emit_class (cfg : InterDexCfg) (st : InterDexSt) (clazz : DexClass) (dconfig : DexConfig)
    (is_primary check_if_skip : Bool) : Except String InterDexSt :=
  if clazz.id ∈ st.det.emitted ∨ is_canary clazz then .ok st
  else if check_if_skip && should_skip_class cfg.plugins clazz then .ok st
  else if !is_primary && check_if_skip && st.mixed_mode_info.is_mixed_mode_class clazz then .ok st
  else if emit_overflow cfg st.det clazz then
    if is_primary then .error "would have to do an early flush on the primary dex"
    else
      match flush_out_secondary cfg st dconfig false with
      | .error e => .error e
      | .ok st2 => .ok (emit_update cfg st2 clazz)
  else .ok (emit_update cfg st clazz)

/-- The four-argument overload of `emit_class` (lines 742-747), with the
defaulted `check_if_skip = true` of the declaration (spec section 4.6 gives
the signature `emit_class(C, binconfig, primary=false, skip_check=true)`;
the header carrying the default is not among the sources). -/
def emit_class4 (cfg : InterDexCfg) (st : InterDexSt) (clazz : DexClass)
    (dconfig : DexConfig) : Except String InterDexSt :=
  emit_class cfg st clazz dconfig false true

/-- `emit_class` as a fold step (argument order flipped for `foldE`). -/
def emit_step (cfg : InterDexCfg) (dconfig : DexConfig) (is_primary check_if_skip : Bool)
    (st : InterDexSt) (clazz : DexClass) : Except String InterDexSt :=
  emit_class cfg st clazz dconfig is_primary check_if_skip

theorem is_canary_of_name (c : DexClass) (n : Nat) (h : c.name = canary_name n) :
    is_canary c = true := by
  unfold is_canary
  rw [h]
  rw [List.isPrefixOf_iff_prefix]
  show kCanaryStart.data <+: (kCanaryStart.data ++ _)
  exact List.prefix_append _ _

/-- C1 (amended): `emit_class` admits C into the current bin without
starting a new bin iff the three capacity conditions hold - with strict
`< 65535` ref comparisons, so the largest admitted ref-set size is 65534 -
or the current pending list is empty, in which case the flush triggered by
the overflow is a no-op and the class is admitted into the still-current
empty bin regardless of its size. -/
theorem c1_emit_class_admission (cfg : InterDexCfg) (st : InterDexSt) (clazz : DexClass)
    (dconfig : DexConfig)
    (h1 : clazz.id ∉ st.det.emitted) (h2 : is_canary clazz = false)
    (hc : cfg.emit_canaries = false) :
    (¬ emit_overflow cfg st.det clazz ↔
      (st.det.la_size + estimate_linear_alloc clazz ≤ cfg.linear_alloc_limit ∧
        st.det.mrefs.card
          + (set_difference (gather_refs cfg.plugins clazz).1 st.det.mrefs).card < 65535 ∧
        st.det.frefs.card
          + (set_difference (gather_refs cfg.plugins clazz).2 st.det.frefs).card < 65535))
    ∧ (∃ st', emit_class cfg st clazz dconfig false false = .ok st')
    ∧ (∀ st', emit_class cfg st clazz dconfig false false = .ok st' →
        ((st'.det.outs = st.det.outs ++ [clazz] ∧ st'.outdex = st.outdex) ↔
          (¬ emit_overflow cfg st.det clazz ∨ st.det.outs = []))) := by
  refine ⟨?_, ?_, ?_⟩
  · unfold emit_overflow kMaxMethodRefs kMaxFieldRefs
    omega
  · cases hres : emit_class cfg st clazz dconfig false false with
    | ok st' => exact ⟨st', rfl⟩
    | error e =>
      exfalso
      by_cases hov : emit_overflow cfg st.det clazz
      · by_cases houts : st.det.outs = [] <;>
          simp [emit_class, h1, h2, hov, flush_out_secondary, houts, hc] at hres
      · simp [emit_class, h1, h2, hov] at hres
  · intro st' hres
    by_cases hov : emit_overflow cfg st.det clazz
    · by_cases houts : st.det.outs = []
      · simp [emit_class, h1, h2, hov, flush_out_secondary, houts, hc] at hres
        subst hres
        simp [emit_update, houts]
      · simp [emit_class, h1, h2, hov, flush_out_secondary, houts, hc] at hres
        subst hres
        apply iff_of_false
        · intro hcon
          have hlen := congrArg List.length hcon.2
          simp [emit_update, flush_out_dex] at hlen
        · simp [hov, houts]
    · simp [emit_class, h1, h2, hov] at hres
      subst hres
      simp [emit_update, hov]

def c1Cfg : InterDexCfg :=
  ⟨[], [], [], 10, false, true, false, false, {}⟩

def c1BigClass : DexClass :=
  ⟨7, "LBig;", true, none, 0, 0, 1, [], [], true, [], []⟩

/-- C1 (counterexample): at an empty tracker with `linear_alloc_limit = 10`
a class of linear-alloc estimate 16 overflows the caps, yet `emit_class`
admits it into the current bin without starting a new bin, because flushing
an empty bin is a no-op; this refutes the claimed "if and only if". -/
theorem c1_emit_class_admission_cex :
    emit_overflow c1Cfg ({} : InterDexSt).det c1BigClass
    ∧ emit_class c1Cfg {} c1BigClass s_empty_config false false =
        .ok (emit_update c1Cfg {} c1BigClass)
    ∧ (emit_update c1Cfg ({} : InterDexSt) c1BigClass).det.outs =
        ({} : InterDexSt).det.outs ++ [c1BigClass]
    ∧ (emit_update c1Cfg ({} : InterDexSt) c1BigClass).outdex = ({} : InterDexSt).outdex := by
  refine ⟨by decide, by decide, by decide, by decide⟩

def c1WitnessCfg : InterDexCfg :=
  ⟨[], [], [], 1000, false, true, false, false, {}⟩

def c1SmallClass : DexClass :=
  ⟨8, "LSmall;", true, none, 0, 0, 1, [3], [4], true, [], []⟩

theorem c1_emit_class_admission_witness :
    (c1SmallClass.id ∉ ({} : InterDexSt).det.emitted ∧ is_canary c1SmallClass = false ∧
      c1WitnessCfg.emit_canaries = false)
    ∧ ((¬ emit_overflow c1WitnessCfg ({} : InterDexSt).det c1SmallClass ↔
        (({} : InterDexSt).det.la_size + estimate_linear_alloc c1SmallClass ≤
            c1WitnessCfg.linear_alloc_limit ∧
          ({} : InterDexSt).det.mrefs.card
            + (set_difference (gather_refs c1WitnessCfg.plugins c1SmallClass).1
                ({} : InterDexSt).det.mrefs).card < 65535 ∧
          ({} : InterDexSt).det.frefs.card
            + (set_difference (gather_refs c1WitnessCfg.plugins c1SmallClass).2
                ({} : InterDexSt).det.frefs).card < 65535))
      ∧ (∃ st', emit_class c1WitnessCfg {} c1SmallClass s_empty_config false false = .ok st')
      ∧ (∀ st', emit_class c1WitnessCfg {} c1SmallClass s_empty_config false false = .ok st' →
          ((st'.det.outs = ({} : InterDexSt).det.outs ++ [c1SmallClass] ∧
              st'.outdex = ({} : InterDexSt).outdex) ↔
            (¬ emit_overflow c1WitnessCfg ({} : InterDexSt).det c1SmallClass ∨
              ({} : InterDexSt).det.outs = [])))) :=
  ⟨⟨by decide, by decide, by decide⟩,
    c1_emit_class_admission c1WitnessCfg {} c1SmallClass s_empty_config
      (by decide) (by decide) (by decide)⟩

/-- C6: for a class whose admission into the primary bin would overflow any
of the three caps, `emit_class` with `is_primary = true` aborts with the
fatal diagnostic; the primary bin is never flushed (on success the output
vector is untouched) and no tracker state is produced before the abort. -/
theorem c6_primary_overflow_fatal (cfg : InterDexCfg) (st : InterDexSt) (clazz : DexClass)
    (dconfig : DexConfig) (chk : Bool)
    (h1 : clazz.id ∉ st.det.emitted) (h2 : is_canary clazz = false)
    (h3 : should_skip_class cfg.plugins clazz = false) :
    (emit_overflow cfg st.det clazz →
      emit_class cfg st clazz dconfig true chk =
        .error "would have to do an early flush on the primary dex")
    ∧ (¬ emit_overflow cfg st.det clazz →
      emit_class cfg st clazz dconfig true chk = .ok (emit_update cfg st clazz))
    ∧ (emit_update cfg st clazz).outdex = st.outdex := by
  refine ⟨fun hov => ?_, fun hov => ?_, ?_⟩
  · simp [emit_class, h1, h2, h3, hov]
  · simp [emit_class, h1, h2, h3, hov]
  · simp [emit_update]

def c6Cfg : InterDexCfg :=
  ⟨[], [], [], 10, false, false, false, false, {}⟩

def c6BigClass : DexClass :=
  ⟨9, "LBigPrimary;", true, none, 0, 0, 1, [], [], true, [], []⟩

theorem c6_primary_overflow_fatal_witness :
    (c6BigClass.id ∉ ({} : InterDexSt).det.emitted ∧ is_canary c6BigClass = false ∧
      should_skip_class c6Cfg.plugins c6BigClass = false ∧
      emit_overflow c6Cfg ({} : InterDexSt).det c6BigClass)
    ∧ emit_class c6Cfg {} c6BigClass s_empty_config true true =
        .error "would have to do an early flush on the primary dex" :=
  ⟨⟨by decide, by decide, by decide, by decide⟩,
    (c6_primary_overflow_fatal c6Cfg {} c6BigClass s_empty_config true
      (by decide) (by decide) (by decide)).1 (by decide)⟩

theorem lookup_name_some (l : List (String × DexClass)) (n : String) (c : DexClass)
    (h : lookup_name l n = some c) : ∃ p, p ∈ l ∧ p.2 = c ∧ p.1 = n := by
  unfold lookup_name at h
  cases hf : l.reverse.find? (fun p => p.1 == n) with
  | none => rw [hf] at h; simp at h
  | some p =>
    rw [hf] at h
    simp at h
    have hmem := List.mem_of_find?_eq_some hf
    have hpred := List.find?_some hf
    rw [List.mem_reverse] at hmem
    exact ⟨p, hmem, h, by simpa using hpred⟩

def c7Cls : DexClass := ⟨11, "LCSeven;", false, none, 0, 0, 0, [], [], true, [], []⟩

def c7Cfg : InterDexCfg := ⟨[], [], [], 1000, false, true, false, false, {}⟩

def c7St : InterDexSt := { det := { outs := [c7Cls] }, num_mixed_mode_dexes := 1 }

/-- C7 (counterexample): with `emit_canaries = false`, sealing a bin with
the mixed-mode flag set while a mixed-mode bin has already been emitted
(`num_mixed_mode_dexes = 1`) does not abort: the flush succeeds, appends a
second such bin, and writes nothing to `mixed_mode.txt` - the assertion and
the asset write live inside the `if (m_emit_canaries)` block. -/
theorem c7_second_mixed_mode_fatal_cex :
    c7St.num_mixed_mode_dexes = 1 ∧ c7St.det.outs ≠ [] ∧ c7Cfg.emit_canaries = false
    ∧ (flush_out_secondary c7Cfg c7St s_empty_config true).toOption.map
        (fun st => (st.mixed_mode_file, st.outdex.length, st.num_mixed_mode_dexes))
      = some ([], 1, 1) :=
  ⟨by decide, by decide, by decide, by decide⟩

/-- C7 (amended): when `emit_canaries` is enabled, sealing a bin whose
effective mixed-mode flag is set asserts that no other mixed-mode bin has
been emitted - aborting with the fatal diagnostic if one has - and
otherwise appends the bin's canary name to the `mixed_mode.txt` asset file
and counts the bin; when canaries are disabled, both the assertion and the
asset write are skipped. -/
theorem c7_second_mixed_mode_fatal (cfg : InterDexCfg) (st : InterDexSt) (dconfig : DexConfig)
    (mixedIn : Bool)
    (hcan : cfg.emit_canaries = true)
    (houts : st.det.outs ≠ [])
    (hnum99 : st.outdex.length ≤ kMaxDexNum)
    (hmix : (mixedIn || is_mixed_mode_dex st dconfig) = true) :
    (st.num_mixed_mode_dexes ≠ 0 →
      flush_out_secondary cfg st dconfig mixedIn =
        .error "For now we only accept 1 mixed mode dex.")
    ∧ (st.num_mixed_mode_dexes = 0 →
      ∃ st', flush_out_secondary cfg st dconfig mixedIn = .ok st' ∧
        st'.mixed_mode_file = st.mixed_mode_file ++ [canary_name st.outdex.length] ∧
        st'.num_mixed_mode_dexes = 1 ∧
        st'.outdex.length = st.outdex.length + 1) := by
  have hlt : ¬ (st.outdex.length > kMaxDexNum) := Nat.not_lt.mpr hnum99
  constructor
  · intro hnum
    simp [flush_out_secondary, houts, hcan, hmix, hlt, hnum]
  · intro hnum
    cases hres : flush_out_secondary cfg st dconfig mixedIn with
    | error e =>
      exfalso
      simp [flush_out_secondary, houts, hcan, hmix, hlt, hnum] at hres
    | ok st' =>
      refine ⟨st', rfl, ?_⟩
      simp [flush_out_secondary, houts, hcan, hmix, hlt, hnum] at hres
      subst hres
      simp [flush_out_dex, hnum]

def c7WCls : DexClass := ⟨12, "LCSevenW;", false, none, 0, 0, 0, [], [], true, [], []⟩

def c7WCfg : InterDexCfg := ⟨[], [], [], 1000, false, true, true, false, {}⟩

def c7WSt : InterDexSt := { det := { outs := [c7WCls] } }

theorem c7_second_mixed_mode_fatal_witness :
    (c7WCfg.emit_canaries = true ∧ c7WSt.det.outs ≠ [] ∧
      c7WSt.outdex.length ≤ kMaxDexNum ∧
      (true || is_mixed_mode_dex c7WSt s_empty_config) = true ∧ c7WSt.num_mixed_mode_dexes = 0)
    ∧ (∃ st', flush_out_secondary c7WCfg c7WSt s_empty_config true = .ok st' ∧
        st'.mixed_mode_file = c7WSt.mixed_mode_file ++ [canary_name c7WSt.outdex.length] ∧
        st'.num_mixed_mode_dexes = 1 ∧
        st'.outdex.length = c7WSt.outdex.length + 1) :=
  ⟨⟨by decide, by decide, by decide, by decide, by decide⟩,
    (c7_second_mixed_mode_fatal c7WCfg c7WSt s_empty_config true
      (by decide) (by decide) (by decide) (by decide)).2 (by decide)⟩

/-- C2 (amended): when `emit_canaries` is enabled, a secondary flush seals
the bin as the pending classes followed by the canary class as its last
element - not its first - where the canary's descriptor encodes the index
the new bin receives in the output vector; a bin sealed directly by
`flush_out_dex` (the primary bin when `normal_primary_dex` is false)
receives no canary. -/
theorem c2_canary_position (cfg : InterDexCfg) (st : InterDexSt) (dconfig : DexConfig)
    (hcan : cfg.emit_canaries = true)
    (houts : st.det.outs ≠ [])
    (hnum99 : st.outdex.length ≤ kMaxDexNum)
    (hmix : is_mixed_mode_dex st dconfig = false)
    (hplug : cfg.plugins = [])
    (hwf : ∀ p ∈ st.det.clookup, p.2.name = p.1) :
    (∃ st' cc, flush_out_secondary cfg st dconfig false = .ok st' ∧
      st'.outdex = st.outdex ++ [st.det.outs ++ [cc]] ∧
      cc.name = canary_name st.outdex.length ∧
      is_canary cc = true ∧
      st'.det.outs = [])
    ∧ (∀ cfg2 st2, cfg2.plugins = [] →
        (flush_out_dex cfg2 st2).outdex = st2.outdex ++ [st2.det.outs]) := by
  have hlt : ¬ (st.outdex.length > kMaxDexNum) := Nat.not_lt.mpr hnum99
  constructor
  · cases hres : flush_out_secondary cfg st dconfig false with
    | error e =>
      exfalso
      simp [flush_out_secondary, houts, hcan, hmix, hlt] at hres
    | ok st' =>
      cases hlk : lookup_name st.det.clookup (canary_name st.outdex.length) with
      | some c =>
        obtain ⟨p, hpmem, hp2, hp1⟩ := lookup_name_some _ _ _ hlk
        have hname : c.name = canary_name st.outdex.length := by
          rw [← hp2, hwf p hpmem, hp1]
        refine ⟨st', c, rfl, ?_, hname, is_canary_of_name c _ hname, ?_⟩ <;>
          · simp [flush_out_secondary, houts, hcan, hmix, hlt, hlk] at hres
            subst hres
            simp [flush_out_dex, hplug, dex_emit_tracker.start_new_dex]
      | none =>
        refine ⟨st', make_canary_class (canary_name st.outdex.length), rfl, ?_,
          rfl, is_canary_of_name _ st.outdex.length rfl, ?_⟩ <;>
          · simp [flush_out_secondary, houts, hcan, hmix, hlt, hlk] at hres
            subst hres
            simp [flush_out_dex, hplug, dex_emit_tracker.start_new_dex]
  · intro cfg2 st2 hplug2
    simp [flush_out_dex, hplug2]

def c2WCls : DexClass := ⟨13, "LCTwoW;", false, none, 0, 0, 0, [], [], true, [], []⟩

def c2WCfg : InterDexCfg := ⟨[], [], [], 1000, false, true, true, false, {}⟩

def c2WSt : InterDexSt := { det := { outs := [c2WCls] } }

theorem c2_canary_position_witness :
    (c2WCfg.emit_canaries = true ∧ c2WSt.det.outs ≠ [] ∧
      c2WSt.outdex.length ≤ kMaxDexNum ∧ is_mixed_mode_dex c2WSt s_empty_config = false ∧
      c2WCfg.plugins = [])
    ∧ (∃ st' cc, flush_out_secondary c2WCfg c2WSt s_empty_config false = .ok st' ∧
        st'.outdex = c2WSt.outdex ++ [c2WSt.det.outs ++ [cc]] ∧
        cc.name = canary_name c2WSt.outdex.length ∧
        is_canary cc = true ∧
        st'.det.outs = []) :=
  ⟨⟨by decide, by decide, by decide, by decide, rfl⟩,
    (c2_canary_position c2WCfg c2WSt s_empty_config (by decide) (by decide) (by decide)
      (by decide) rfl (by simp [c2WSt])).1⟩

/-- Insertion into an `unordered_set` kept as an insertion-ordered list:
no-op when the element is already present. -/
def insert_unique (l : List DexClass) (c : DexClass) : List DexClass :=
  if c ∈ l then l else l ++ [c]

/-- The construction of `coldstart_classes` (lines 231-235): every
interdex-order entry found in `clookup`, first insertion wins. -/
def coldstart_classes_of (clookup : List (String × DexClass)) (iorder : List String) :
    List DexClass :=
  iorder.foldl (fun acc s =>
    match lookup_name clookup s with
    | some c => insert_unique acc c
    | none => acc) []

/-- The identity set of a class list. -/
def cs_ids (l : List DexClass) : Finset Nat :=
  (l.map (·.id)).toFinset

/-- The instruction-walk contribution to `cold_cold_references` (lines
241-263): for every method of a class of `input` that lies in the
cold-start set, every class referenced by a method-ref, field-ref or type
of an instruction, provided it lies in the cold-start set and is not the
declaring class itself. -/
def insn_cold_refs (coldstart input : List DexClass) : Finset Nat :=
  ((input.filter (fun c => coldstart.contains c)).map
    (fun c => c.insnRefs.filter (fun r => decide (r ≠ c.id ∧ r ∈ cs_ids coldstart)))).flatten.toFinset

/-- The conservative-liveness contribution (lines 264-269): every
non-renameable class of the full scope. -/
def non_renameable_refs (scope : List DexClass) : Finset Nat :=
  ((scope.filter (fun c => !c.canRename)).map (·.id)).toFinset

/-- One step of the `gather_types` pass (lines 272-281): a class of the
input scope already in the reference set contributes its structurally
referenced classes. -/
def gather_types_step (acc : Finset Nat) (c : DexClass) : Finset Nat :=
  if c.id ∈ acc then acc ∪ c.typeRefs.toFinset else acc

/-- The single in-order `gather_types` pass over the input scope, mutating
the reference set as it goes (lines 272-281). -/
def gather_types_closure (input : List DexClass) (acc : Finset Nat) : Finset Nat :=
  input.foldl gather_types_step acc

/-- One iteration's `cold_cold_references` (lines 240-281). -/
def cold_cold_references_of (scope coldstart input : List DexClass) : Finset Nat :=
  gather_types_closure input (insn_cold_refs coldstart input ∪ non_renameable_refs scope)

/-- Is the class counted as unreferenced this iteration (line 284)? -/
def is_unref (refs : Finset Nat) (c : DexClass) : Bool :=
  c.canRename && decide (c.id ∉ refs)

/-- `new_no_ref` of one iteration (lines 283-290). -/
def unref_count (coldstart : List DexClass) (refs : Finset Nat) : Nat :=
  (coldstart.filter (is_unref refs)).length

/-- The ids inserted into `unreferenced_classes` this iteration. -/
def new_unref_ids (coldstart : List DexClass) (refs : Finset Nat) : Finset Nat :=
  ((coldstart.filter (is_unref refs)).map (·.id)).toFinset

/-- `output_scope` of one iteration (lines 282-290): the cold-start classes
that survive. -/
def output_scope (coldstart : List DexClass) (refs : Finset Nat) : List DexClass :=
  coldstart.filter (fun c => !is_unref refs c)

/-- The `while (old_no_ref != new_no_ref)` loop (lines 237-294), with
explicit fuel; `none` means the stopping condition was not reached within
`fuel` iterations.  The initial C++ `old_no_ref = -1` merely forces the
first iteration, so the loop is entered with `old_no_ref = 0` and the
comparison happens after the body, exactly as in the source. -/
def find_unref_loop (scope coldstart : List DexClass) :
    Nat → Nat → List DexClass → Finset Nat → Option (Finset Nat)
  | 0, _, _, _ => none
  | fuel + 1, old_no_ref, input, unref =>
    if unref_count coldstart (cold_cold_references_of scope coldstart input) = old_no_ref then
      some (unref ∪ new_unref_ids coldstart (cold_cold_references_of scope coldstart input))
    else
      find_unref_loop scope coldstart fuel
        (unref_count coldstart (cold_cold_references_of scope coldstart input))
        (output_scope coldstart (cold_cold_references_of scope coldstart input))
        (unref ∪ new_unref_ids coldstart (cold_cold_references_of scope coldstart input))

/-- `find_unrefenced_coldstart_classes` (lines 214-296; the typo is the
source's).   `reorder` models the iteration order of the pointer-keyed
`unordered_set` `coldstart_classes`; the first iteration walks the input
scope itself. -/
def find_unrefenced_coldstart_classes (scope : List DexClass)
    (clookup : List (String × DexClass)) (interdexorder : List String)
    (static_prune_classes : Bool) (reorder : List DexClass → List DexClass) (fuel : Nat) :
    Option (Finset Nat) :=
  if !static_prune_classes then some ∅
  else
    find_unref_loop scope (reorder (coldstart_classes_of clookup interdexorder)) fuel 0 scope ∅

theorem gather_types_closure_nil (acc : Finset Nat) : gather_types_closure [] acc = acc := rfl

theorem gather_types_closure_cons (a : DexClass) (l : List DexClass) (acc : Finset Nat) :
    gather_types_closure (a :: l) acc = gather_types_closure l (gather_types_step acc a) := rfl

theorem gather_types_step_subset (acc : Finset Nat) (c : DexClass) :
    acc ⊆ gather_types_step acc c := by
  unfold gather_types_step
  split
  · exact Finset.subset_union_left
  · exact Finset.Subset.refl _

theorem gather_types_step_mono {acc acc' : Finset Nat} (h : acc ⊆ acc') (c : DexClass) :
    gather_types_step acc c ⊆ gather_types_step acc' c := by
  unfold gather_types_step
  by_cases h1 : c.id ∈ acc
  · rw [if_pos h1, if_pos (h h1)]
    exact Finset.union_subset_union h (Finset.Subset.refl _)
  · rw [if_neg h1]
    by_cases h2 : c.id ∈ acc'
    · rw [if_pos h2]
      exact h.trans Finset.subset_union_left
    · rw [if_neg h2]
      exact h

theorem gather_types_closure_mono_acc {acc acc' : Finset Nat} (h : acc ⊆ acc')
    (l : List DexClass) : gather_types_closure l acc ⊆ gather_types_closure l acc' := by
  induction l generalizing acc acc' with
  | nil => simpa [gather_types_closure_nil] using h
  | cons a l ih =>
    rw [gather_types_closure_cons, gather_types_closure_cons]
    exact ih (gather_types_step_mono h a)

theorem gather_types_closure_mono {l' l : List DexClass} (h : l'.Sublist l) :
    ∀ {acc' acc : Finset Nat}, acc' ⊆ acc →
      gather_types_closure l' acc' ⊆ gather_types_closure l acc := by
  induction h with
  | slnil => intro acc' acc h'; simpa [gather_types_closure_nil] using h'
  | cons a h ih =>
    intro acc' acc h'
    rw [gather_types_closure_cons]
    exact (ih h').trans (gather_types_closure_mono_acc (gather_types_step_subset acc a) _)
  | cons₂ a h ih =>
    intro acc' acc h'
    rw [gather_types_closure_cons, gather_types_closure_cons]
    exact ih (gather_types_step_mono h' a)

theorem insn_cold_refs_mono (cs : List DexClass) {l' l : List DexClass} (h : l'.Sublist l) :
    insn_cold_refs cs l' ⊆ insn_cold_refs cs l := by
  intro a ha
  simp only [insn_cold_refs, List.mem_toFinset, List.mem_flatten, List.mem_map,
    List.mem_filter] at ha ⊢
  obtain ⟨L, ⟨c, ⟨hc, hcc⟩, hL⟩, haL⟩ := ha
  exact ⟨L, ⟨c, ⟨h.subset hc, hcc⟩, hL⟩, haL⟩

theorem cold_cold_references_mono (scope cs : List DexClass) {l' l : List DexClass}
    (h : l'.Sublist l) :
    cold_cold_references_of scope cs l' ⊆ cold_cold_references_of scope cs l :=
  gather_types_closure_mono h
    (Finset.union_subset_union (insn_cold_refs_mono cs h) (Finset.Subset.refl _))

theorem filter_sublist_of_imp {α : Type} (l : List α) (p q : α → Bool)
    (h : ∀ a ∈ l, p a = true → q a = true) : (l.filter p).Sublist (l.filter q) := by
  induction l with
  | nil => simp
  | cons a l ih =>
    simp only [List.filter_cons]
    by_cases hp : p a = true
    · rw [if_pos hp, if_pos (h a (List.mem_cons_self a l) hp)]
      exact .cons₂ _ (ih fun b hb hpb => h b (List.mem_cons_of_mem a hb) hpb)
    · rw [if_neg hp]
      by_cases hq : q a = true
      · rw [if_pos hq]
        exact .cons _ (ih fun b hb hpb => h b (List.mem_cons_of_mem a hb) hpb)
      · rw [if_neg hq]
        exact ih fun b hb hpb => h b (List.mem_cons_of_mem a hb) hpb

theorem is_unref_mono {R' R : Finset Nat} (h : R' ⊆ R) (c : DexClass)
    (hc : is_unref R c = true) : is_unref R' c = true := by
  unfold is_unref at hc ⊢
  simp only [Bool.and_eq_true, decide_eq_true_eq] at hc ⊢
  exact ⟨hc.1, fun hmem => hc.2 (h hmem)⟩

theorem unref_count_antitone (cs : List DexClass) {R' R : Finset Nat} (h : R' ⊆ R) :
    unref_count cs R ≤ unref_count cs R' :=
  (filter_sublist_of_imp cs _ _ (fun a _ hpa => is_unref_mono h a hpa)).length_le

theorem output_scope_mono (cs : List DexClass) {R' R : Finset Nat} (h : R' ⊆ R) :
    (output_scope cs R').Sublist (output_scope cs R) := by
  apply filter_sublist_of_imp
  intro a _ hpa
  cases hra : is_unref R a
  · simp
  · exfalso
    have h2 := is_unref_mono h a hra
    simp [h2] at hpa

theorem unref_count_le (cs : List DexClass) (R : Finset Nat) : unref_count cs R ≤ cs.length :=
  List.length_filter_le _ _

theorem find_unref_loop_aux (scope cs : List DexClass) :
    ∀ (fuel : Nat) (lprev input : List DexClass) (old : Nat) (unref : Finset Nat),
      input = output_scope cs (cold_cold_references_of scope cs lprev) →
      old = unref_count cs (cold_cold_references_of scope cs lprev) →
      input.Sublist lprev →
      cs.length + 1 - old ≤ fuel →
      (find_unref_loop scope cs fuel old input unref).isSome = true := by
  intro fuel
  induction fuel with
  | zero =>
    intro lprev input old unref hin hold hsub hbound
    exfalso
    have h1 : old ≤ cs.length := hold ▸ unref_count_le cs _
    omega
  | succ fuel ih =>
    intro lprev input old unref hin hold hsub hbound
    simp only [find_unref_loop]
    by_cases hstop : unref_count cs (cold_cold_references_of scope cs input) = old
    · rw [if_pos hstop]
      rfl
    · rw [if_neg hstop]
      have hsubR : cold_cold_references_of scope cs input ⊆
          cold_cold_references_of scope cs lprev :=
        cold_cold_references_mono scope cs hsub
      have hge : old ≤ unref_count cs (cold_cold_references_of scope cs input) := by
        rw [hold]
        exact unref_count_antitone cs hsubR
      have hle : unref_count cs (cold_cold_references_of scope cs input) ≤ cs.length :=
        unref_count_le cs _
      apply ih input _ _ _ rfl rfl
      · have h3 := output_scope_mono cs hsubR
        rw [← hin] at h3
        exact h3
      · omega

theorem find_unref_loop_isSome (scope cs : List DexClass) (fuel : Nat) (hcs : cs.Sublist scope)
    (hfuel : cs.length + 2 ≤ fuel) :
    (find_unref_loop scope cs fuel 0 scope ∅).isSome = true := by
  obtain ⟨f, rfl⟩ : ∃ f, fuel = f + 1 := ⟨fuel - 1, by omega⟩
  simp only [find_unref_loop]
  by_cases hstop : unref_count cs (cold_cold_references_of scope cs scope) = 0
  · rw [if_pos hstop]
    rfl
  · rw [if_neg hstop]
    apply find_unref_loop_aux scope cs f scope _ _ _ rfl rfl
    · show (output_scope cs _).Sublist scope
      unfold output_scope
      exact (List.filter_sublist _).trans hcs
    · have := unref_count_le cs (cold_cold_references_of scope cs scope)
      omega

def c5A : DexClass := ⟨1, "LCFiveA;", false, none, 0, 0, 0, [], [], true, [], [2]⟩

def c5B : DexClass := ⟨2, "LCFiveB;", false, none, 0, 0, 0, [], [], true, [], []⟩

def c5D : DexClass := ⟨3, "LCFiveD;", false, none, 0, 0, 0, [], [], false, [], [1]⟩

def c5X : DexClass := ⟨4, "LCFiveX;", false, none, 0, 0, 0, [], [], true, [], []⟩

/-- The input scope in dex order: A before D. -/
def c5Scope : List DexClass := [c5A, c5D, c5B, c5X]

/-- The priority list puts D before A, so the cold-start set - iterated in
insertion order - processes D first. -/
def c5Iorder : List String := ["LCFiveD;", "LCFiveA;", "LCFiveB;", "LCFiveX;"]

def c5Clookup : List (String × DexClass) :=
  [("LCFiveA;", c5A), ("LCFiveD;", c5D), ("LCFiveB;", c5B), ("LCFiveX;", c5X)]

def c5Cs : List DexClass := [c5D, c5A, c5B, c5X]

def c5Refs1 : Finset Nat := cold_cold_references_of c5Scope c5Cs c5Scope

def c5Refs2 : Finset Nat :=
  cold_cold_references_of c5Scope c5Cs (output_scope c5Cs c5Refs1)

/-- C5 (counterexample): on this four-class input the pruner's loop is not
monotone.  Iteration 1 walks the scope in dex order (A before D), so D's
`gather_types` entry A is seen too late to propagate to B, and both B and X
count as unreferenced (count 2).  Iteration 2 walks the surviving cold-start
set in its own order (D before A), the A -> B type edge now fires, and only
X counts (count 1): the unreferenced count decreases and the surviving
input scope grows from 2 to 3 classes.  The loop, entered through
`find_unrefenced_coldstart_classes` with these very inputs, passes through
both iterations since iteration 1's count is nonzero. -/
theorem c5_pruner_monotonicity_cex :
    coldstart_classes_of c5Clookup c5Iorder = c5Cs
    ∧ unref_count c5Cs c5Refs1 = 2
    ∧ unref_count c5Cs c5Refs2 = 1
    ∧ (output_scope c5Cs c5Refs1).length = 2
    ∧ (output_scope c5Cs c5Refs2).length = 3
    ∧ unref_count c5Cs c5Refs1 ≠ 0
    ∧ find_unrefenced_coldstart_classes c5Scope c5Clookup c5Iorder true id 10 =
        some ({2, 4} : Finset Nat) :=
  ⟨by decide, by decide, by decide, by decide, by decide, by decide, by decide⟩

/-- C5 (amended): the pruner returns the empty set immediately when
`static_prune_classes` is false; one loop iteration is monotone in its
input scope under the sublist order (`cold_cold_references` only shrink
when the walked scope shrinks), the unreferenced count is antitone and the
surviving scope monotone in the reference set; consequently, whenever the
cold-start set is processed in an order consistent with the scope walked in
iteration 1 (cold-start list a sublist of the scope), the counts are
nondecreasing across iterations, the surviving scope never grows, and the
loop reaches its stopping condition within `|coldstart| + 2` iterations.
Without that order coherence the counts can decrease (see the
counterexample), which is how the unordered-set iteration behaves in the
source. -/
theorem c5_pruner_termination :
    (∀ (scope : List DexClass) (clookup : List (String × DexClass)) (iorder : List String)
        (reorder : List DexClass → List DexClass) (fuel : Nat),
      find_unrefenced_coldstart_classes scope clookup iorder false reorder fuel = some ∅)
    ∧ (∀ (scope cs l' l : List DexClass), l'.Sublist l →
        cold_cold_references_of scope cs l' ⊆ cold_cold_references_of scope cs l)
    ∧ (∀ (cs : List DexClass) (R' R : Finset Nat), R' ⊆ R →
        unref_count cs R ≤ unref_count cs R' ∧
          (output_scope cs R').Sublist (output_scope cs R))
    ∧ (∀ (scope cs : List DexClass) (fuel : Nat), cs.Sublist scope →
        cs.length + 2 ≤ fuel →
        (find_unref_loop scope cs fuel 0 scope ∅).isSome = true) := by
  refine ⟨?_, ?_, ?_, ?_⟩
  · intro scope clookup iorder reorder fuel
    simp [find_unrefenced_coldstart_classes]
  · intro scope cs l' l h
    exact cold_cold_references_mono scope cs h
  · intro cs R' R h
    exact ⟨unref_count_antitone cs h, output_scope_mono cs h⟩
  · intro scope cs fuel hcs hfuel
    exact find_unref_loop_isSome scope cs fuel hcs hfuel

theorem c5_pruner_termination_witness :
    (([] : List DexClass).Sublist [c5A] ∧ ([] : List DexClass).length + 2 ≤ 2 ∧
      (({1} : Finset Nat) : Finset Nat) ⊆ {1, 2} ∧ [c5B].Sublist [c5B, c5X])
    ∧ find_unrefenced_coldstart_classes [c5A] c5Clookup c5Iorder false id 7 = some ∅
    ∧ cold_cold_references_of [c5A] [c5A] [c5B] ⊆ cold_cold_references_of [c5A] [c5A] [c5B, c5X]
    ∧ (unref_count [c5X] ({1, 2} : Finset Nat) ≤ unref_count [c5X] {1} ∧
        (output_scope [c5X] ({1} : Finset Nat)).Sublist (output_scope [c5X] {1, 2}))
    ∧ (find_unref_loop [c5A] [] 2 0 [c5A] ∅).isSome = true :=
  ⟨⟨by decide, by decide, by decide, by decide⟩,
    c5_pruner_termination.1 [c5A] c5Clookup c5Iorder id 7,
    c5_pruner_termination.2.1 [c5A] [c5A] [c5B] [c5B, c5X] (by decide),
    c5_pruner_termination.2.2.1 [c5X] {1} {1, 2} (by decide),
    c5_pruner_termination.2.2.2 [c5A] [] 2 (by decide) (by decide)⟩

/-- A left fold in the `Except` monad, short-circuiting on the first
error; used for every sequential loop of the driver. -/
def foldE {σ α : Type} (f : σ → α → Except String σ) : σ → List α → Except String σ
  | s, [] => .ok s
  | s, a :: l =>
    match f s a with
    | .error e => .error e
    | .ok s' => foldE f s' l

/-- The name index built over a dex partition (lines 317-325 and 340-344);
later insertions overwrite earlier ones, which `lookup_name` honours by
preferring the last binding. -/
def build_clookup (dexen : List (List DexClass)) : List (String × DexClass) :=
  dexen.flatten.map (fun c => (c.name, c))

/-- `build_class_scope` (external `DexUtil` helper, line 327): the flattened
class universe in dex order. -/
def build_class_scope (dexen : List (List DexClass)) : List DexClass :=
  dexen.flatten

/-- Position of the first list entry equal to `s`, with the list length
playing the role of the `end()` iterator (`std::find`, lines 392, 422-431). -/
def find_idx_str (iorder : List String) (s : String) : Nat :=
  iorder.findIdx (fun e => e == s)

/-- First loop of `emit_mixed_mode_classes` (lines 763-780): walk the
interdex order; a mixed-mode class is emitted (skip checks off) when the
order may be touched, and removed from the mixed-mode set regardless. -/
def emit_mixed_mode_step1 (cfg : InterDexCfg) (can_touch : Bool) (s : InterDexSt)
    (entry : String) : Except String InterDexSt :=
  match lookup_name s.det.clookup entry with
  | none => .ok s
  | some clazz =>
    if s.mixed_mode_info.is_mixed_mode_class clazz then
      match (if can_touch then emit_class cfg s clazz s_empty_config false false else .ok s) with
      | .error e => .error e
      | .ok s' =>
        .ok { s' with mixed_mode_info := s'.mixed_mode_info.remove_mixed_mode_class clazz }
    else .ok s

/-- Second loop of `emit_mixed_mode_classes` (lines 782-793): emit every
remaining mixed-mode class whose name is known to `clookup`. -/
def emit_mixed_mode_step2 (cfg : InterDexCfg) (s : InterDexSt) (clazz : DexClass) :
    Except String InterDexSt :=
  match lookup_name s.det.clookup clazz.name with
  | none => .ok s
  | some _ => emit_class cfg s clazz s_empty_config false false

/-- `InterDex::emit_mixed_mode_classes` (lines 749-802). -/
def emit_mixed_mode_classes (cfg : InterDexCfg) (iorder : List String) (st : InterDexSt)
    (can_touch_interdex_order : Bool) : Except String InterDexSt :=
  match foldE (emit_mixed_mode_step1 cfg can_touch_interdex_order) st iorder with
  | .error e => .error e
  | .ok st1 =>
    match foldE (emit_mixed_mode_step2 cfg) st1 st1.mixed_mode_info.mixedModeClasses with
    | .error e => .error e
    | .ok st2 =>
      match ((if st2.det.outs = [] then .ok st2
             else flush_out_secondary cfg st2 s_empty_config true) :
           Except String InterDexSt) with
      | .error e => .error e
      | .ok st3 =>
        .ok { st3 with mixed_mode_info := { st3.mixed_mode_info with mixedModeClasses := [] } }

/-- The per-walk constants of the priority walk: the (possibly rewritten)
interdex order, the positions of the three markers, and the pruner's
result. -/
structure WalkCtx where
  iorder : List String
  last_end_idx : Nat
  scroll_start_idx : Nat
  scroll_end_idx : Nat
  unreferenced : Finset Nat

/-- The loop-carried state of the priority walk (lines 433-440). -/
structure WalkAcc where
  st : InterDexSt
  dconfig : DexConfig
  previous_dex : Nat
  end_markers_present : Bool

/-- The `DexEndMarker` handling of a walk iteration whose entry is not in
`clookup` (lines 445-462): flush the current secondary bin, record the
cold-start dex count, mark the end markers present, and - at the last end
marker with predefined mixed-mode classes - emit the mixed-mode bin. -/
def walk_step_marker (cfg : InterDexCfg) (ctx : WalkCtx) (acc : WalkAcc) (i : Nat)
    (entry : String) : Except String WalkAcc :=
  if str_contains entry "DexEndMarker" then
    match flush_out_secondary cfg acc.st acc.dconfig false with
    | .error e => .error e
    | .ok st1 =>
      if ctx.last_end_idx = i ∧ st1.mixed_mode_info.has_predefined_classes then
        match emit_mixed_mode_classes cfg ctx.iorder
            { st1 with cold_start_set_dex_count := st1.outdex.length }
            (st1.mixed_mode_info.canTouchColdstartSet
              || st1.mixed_mode_info.canTouchColdstartExtendedSet) with
        | .error e => .error e
        | .ok st2 => .ok { acc with st := st2, end_markers_present := true }
      else
        .ok { acc with
              st := { st1 with cold_start_set_dex_count := st1.outdex.length },
              end_markers_present := true }
  else .ok acc

/-- The `ScrollListEnd` handling of a walk iteration whose entry is not in
`clookup` (lines 463-467). -/
def walk_step_scroll (cfg : InterDexCfg) (ctx : WalkCtx) (acc1 : WalkAcc) (i : Nat) :
    Except String WalkAcc :=
  if cfg.emit_scroll_set_marker ∧ i = ctx.scroll_end_idx then
    match flush_out_secondary cfg acc1.st acc1.dconfig false with
    | .error e => .error e
    | .ok st2 =>
      .ok { acc1 with st := { st2 with
        scroll_set_dex_count := st2.outdex.length - st2.secondary_dexes } }
  else .ok acc1

/-- The per-class `DexConfig` update of the walk (lines 497-510), together
with the updated `previous_dex`. -/
def walk_step_dconf (ctx : WalkCtx) (acc : WalkAcc) (sec : Nat) (i : Nat) : DexConfig × Nat :=
  match (if acc.previous_dex ≠ sec then (acc.dconfig.reset, sec)
         else (acc.dconfig, acc.previous_dex)) with
  | (dconf0, prev0) =>
    ({ dconf0 with
        is_coldstart := decide (ctx.last_end_idx ≥ i),
        is_extended_set := dconf0.is_extended_set || decide (ctx.last_end_idx < i),
        has_scroll_cls := dconf0.has_scroll_cls
          || (decide (ctx.scroll_start_idx < i) && decide (ctx.scroll_end_idx > i)) }, prev0)

/-- The class handling of a walk iteration (lines 471-512): mixed-mode
bookkeeping, the unreferenced skip, the `DexConfig` update and the
emission. -/
def walk_step_class (cfg : InterDexCfg) (ctx : WalkCtx) (acc : WalkAcc) (i : Nat)
    (clazz : DexClass) : Except String WalkAcc :=
  match ((if !acc.st.mixed_mode_info.canTouchColdstartSet
        && acc.st.mixed_mode_info.is_mixed_mode_class clazz then
      if ctx.last_end_idx > i then
        .ok { acc.st with
          mixed_mode_info := acc.st.mixed_mode_info.remove_mixed_mode_class clazz }
      else if !acc.st.mixed_mode_info.canTouchColdstartExtendedSet then
        Except.error "We shouldn't get here since we cleared it up when emitting the mixed mode dex!"
      else .ok acc.st
    else .ok acc.st) : Except String InterDexSt) with
  | .error e => .error e
  | .ok st1 =>
    if clazz.id ∈ ctx.unreferenced then
      .ok { acc with st := { st1 with
        cls_skipped_in_secondary := st1.cls_skipped_in_secondary + 1 } }
    else
      match emit_class cfg st1 clazz (walk_step_dconf ctx acc st1.secondary_dexes i).1
          false true with
      | .error e => .error e
      | .ok st2 => .ok { st := st2,
                         dconfig := (walk_step_dconf ctx acc st1.secondary_dexes i).1,
                         previous_dex := (walk_step_dconf ctx acc st1.secondary_dexes i).2,
                         end_markers_present := acc.end_markers_present }

/-- One iteration of the priority walk (lines 438-513). -/
def walk_step (cfg : InterDexCfg) (ctx : WalkCtx) (acc : WalkAcc) (ie : Nat × String) :
    Except String WalkAcc :=
  match lookup_name acc.st.det.clookup ie.2 with
  | none =>
    match walk_step_marker cfg ctx acc ie.1 ie.2 with
    | .error e => .error e
    | .ok acc1 => walk_step_scroll cfg ctx acc1 ie.1
  | some clazz => walk_step_class cfg ctx acc ie.1 clazz

/-- The priority-list rewrite under `normal_primary_dex` (lines 386-417):
primary-dex classes appearing in the order before the first
`LDexEndMarker0;` stay put; all others are prepended, in primary-dex
order. -/
def rewrite_interdexorder (iorder : List String) (primary_dex : List DexClass) : List String :=
  ((primary_dex.filter (fun p =>
      decide (find_idx_str iorder p.name = iorder.length ∨
        find_idx_str iorder p.name > find_idx_str iorder "LDexEndMarker0;"))).map (·.name))
    ++ iorder

/-- One iteration of the primary-dex priority loop (lines 346-360): look
the entry up in the primary dex's own index, skip unreferenced classes, and
emit the rest with `is_primary` set. -/
def run_primary_step (cfg : InterDexCfg) (unreferenced : Finset Nat) (s : InterDexSt)
    (entry : String) : Except String InterDexSt :=
  match lookup_name (build_clookup [cfg.dexen.headD []]) entry with
  | none => .ok s
  | some clazz =>
    if clazz.id ∈ unreferenced then
      .ok { s with cls_skipped_in_primary := s.cls_skipped_in_primary + 1 }
    else emit_class cfg s clazz s_empty_config true true

/-- Phase 1 of `InterDex::run` for the untouchable primary dex (lines
337-377): emit priority-listed primary classes, then the rest of the
primary dex, into a separate tracker; flush via `flush_out_dex`; record all
primary classes in the main tracker's `emitted`. -/
def run_primary (cfg : InterDexCfg) (iorder0 : List String) (unreferenced : Finset Nat)
    (st0 : InterDexSt) : Except String InterDexSt :=
  if cfg.normal_primary_dex then .ok st0
  else
    match foldE (run_primary_step cfg unreferenced)
      { st0 with det := { clookup := build_clookup [cfg.dexen.headD []] } } iorder0 with
    | .error e => .error e
    | .ok st1 =>
      match foldE (emit_step cfg s_empty_config true true) st1 (cfg.dexen.headD []) with
      | .error e => .error e
      | .ok st2 =>
        .ok { flush_out_dex cfg st2 with det := { st0.det with
          emitted := st0.det.emitted ∪ ((cfg.dexen.headD []).map (·.id)).toFinset } }

/-- One iteration of the post-walk re-walk (lines 530-538): emit exactly
the classes the pruner had excluded. -/
def run_post_step (cfg : InterDexCfg) (unreferenced : Finset Nat) (s : InterDexSt)
    (entry : String) : Except String InterDexSt :=
  match lookup_name s.det.clookup entry with
  | none => .ok s
  | some clazz =>
    if clazz.id ∈ unreferenced then emit_class cfg s clazz s_empty_config false true
    else .ok s

/-- The counter correction when no end markers were present (lines
540-543). -/
def post_counters (end_markers_present : Bool) (stB : InterDexSt) : InterDexSt :=
  if !end_markers_present then
    { stB with cold_start_set_dex_count := stB.outdex.length, scroll_set_dex_count := 0 }
  else stB

/-- One plugin's leftover emission (lines 556-563). -/
def run_leftover_step (cfg : InterDexCfg) (s : InterDexSt) (p : InterDexPassPlugin) :
    Except String InterDexSt :=
  foldE (emit_step cfg s_empty_config false false) s p.leftover_classes

/-- Phase 3 of `InterDex::run` (lines 515-569): the post-walk mixed-mode
emission, the re-walk emitting the pruned classes, the full-scope walk, the
plugin leftovers, and the final flush of a non-empty pending list. -/
def run_post_walk (cfg : InterDexCfg) (ctx : WalkCtx) (acc : WalkAcc) :
    Except String InterDexSt :=
  match (if acc.st.mixed_mode_info.has_predefined_classes
        ∧ ctx.last_end_idx = ctx.iorder.length then
      emit_mixed_mode_classes cfg ctx.iorder acc.st
        (acc.st.mixed_mode_info.canTouchColdstartSet
          || acc.st.mixed_mode_info.canTouchColdstartExtendedSet)
    else .ok acc.st) with
  | .error e => .error e
  | .ok stA =>
    match foldE (run_post_step cfg ctx.unreferenced) stA ctx.iorder with
    | .error e => .error e
    | .ok stB =>
      match foldE (emit_step cfg s_empty_config false true)
          (post_counters acc.end_markers_present stB) (build_class_scope cfg.dexen) with
      | .error e => .error e
      | .ok stC =>
        match foldE (run_leftover_step cfg) stC cfg.plugins with
        | .error e => .error e
        | .ok stD =>
          if stD.det.outs = [] then .ok stD
          else flush_out_secondary cfg stD s_empty_config false

/-- The walk context of a run, from the rewritten order (lines 419-431). -/
def mk_walk_ctx (iorder : List String) (unreferenced : Finset Nat) : WalkCtx :=
  { iorder := iorder,
    last_end_idx := find_idx_str iorder "LDexEndMarker1;",
    scroll_start_idx := find_idx_str iorder "LScrollListStart;",
    scroll_end_idx := find_idx_str iorder "LScrollListEnd;",
    unreferenced := unreferenced }

/-- The priority list actually walked (lines 386-417): the rewritten order
under `normal_primary_dex` with a non-empty cold-start list, the plain
cold-start list otherwise. -/
def run_iorder (cfg : InterDexCfg) : List String :=
  if cfg.normal_primary_dex ∧ cfg.coldstart_list.length > 0 then
    rewrite_interdexorder cfg.coldstart_list (cfg.dexen.headD [])
  else cfg.coldstart_list

/-- `InterDex::run` (lines 304-582), with the pruner's unordered-set
iteration order (`reorder`) and fuel made explicit: `none` means the
pruner's loop did not converge within `fuel` iterations, and an
`Except.error` models an `always_assert_log` abort. -/
def run (cfg : InterDexCfg) (reorder : List DexClass → List DexClass) (fuel : Nat) :
    Option (Except String InterDexSt) :=
  match find_unrefenced_coldstart_classes (build_class_scope cfg.dexen)
      (build_clookup cfg.dexen) cfg.coldstart_list cfg.static_prune_classes
      reorder fuel with
  | none => none
  | some unreferenced =>
    some (
      match run_primary cfg cfg.coldstart_list unreferenced
          { det := { clookup := build_clookup cfg.dexen },
            mixed_mode_info := cfg.mixed_mode_info } with
      | .error e => .error e
      | .ok st1 =>
        match foldE (walk_step cfg (mk_walk_ctx (run_iorder cfg) unreferenced))
            { st := st1,
              dconfig := { is_coldstart := decide ((run_iorder cfg).length > 0) },
              previous_dex := st1.secondary_dexes,
              end_markers_present := false } (run_iorder cfg).enum with
        | .error e => .error e
        | .ok accF => run_post_walk cfg (mk_walk_ctx (run_iorder cfg) unreferenced) accF)

/-- The observable output of a run: the ordered list of bins. -/
def run_bins (cfg : InterDexCfg) (reorder : List DexClass → List DexClass) (fuel : Nat) :
    Option (List (List DexClass)) :=
  match run cfg reorder fuel with
  | some (.ok st) => some st.outdex
  | _ => none

/-- The classes placed so far, in placement order: sealed bins first, then
the pending list. -/
def flat (st : InterDexSt) : List DexClass :=
  st.outdex.flatten ++ st.det.outs

/-- The run only ever appends: the placement order and the sealed bins of
an earlier state persist as prefixes in any later state. -/
def StExt (s s' : InterDexSt) : Prop :=
  flat s <+: flat s' ∧ s.outdex <+: s'.outdex

theorem StExt.refl (s : InterDexSt) : StExt s s :=
  ⟨List.prefix_refl _, List.prefix_refl _⟩

theorem StExt.trans {a b c : InterDexSt} (h1 : StExt a b) (h2 : StExt b c) : StExt a c :=
  ⟨h1.1.trans h2.1, h1.2.trans h2.2⟩

theorem foldE_nil {σ α : Type} (f : σ → α → Except String σ) (s : σ) :
    foldE f s [] = .ok s := rfl

theorem foldE_cons {σ α : Type} (f : σ → α → Except String σ) (s : σ) (a : α) (l : List α) :
    foldE f s (a :: l) =
      match f s a with
      | .error e => .error e
      | .ok s' => foldE f s' l := rfl

theorem foldE_ok_cons {σ α : Type} {f : σ → α → Except String σ} {s t : σ} {a : α}
    {l : List α} (h : foldE f s (a :: l) = .ok t) :
    ∃ s', f s a = .ok s' ∧ foldE f s' l = .ok t := by
  rw [foldE_cons] at h
  cases hf : f s a with
  | error e => rw [hf] at h; exact absurd h (by simp)
  | ok s' => rw [hf] at h; exact ⟨s', rfl, h⟩

theorem foldE_append {σ α : Type} (f : σ → α → Except String σ) (s : σ) (l₁ l₂ : List α) :
    foldE f s (l₁ ++ l₂) =
      match foldE f s l₁ with
      | .error e => .error e
      | .ok s' => foldE f s' l₂ := by
  induction l₁ generalizing s with
  | nil => simp [foldE_nil]
  | cons a l₁ ih =>
    rw [List.cons_append, foldE_cons, foldE_cons]
    cases f s a <;> simp [ih]

/-- Relation preservation through a fold: every successful step relating
its endpoints makes the whole successful fold relate its endpoints. -/
theorem foldE_rel {σ α : Type} (R : σ → σ → Prop) (hrefl : ∀ s, R s s)
    (htrans : ∀ {a b c}, R a b → R b c → R a c)
    {f : σ → α → Except String σ} {l : List α}
    (hstep : ∀ s a s', a ∈ l → f s a = .ok s' → R s s') :
    ∀ {s s'}, foldE f s l = .ok s' → R s s' := by
  induction l with
  | nil => intro s s' h; rw [foldE_nil] at h; cases h; exact hrefl _
  | cons a l ih =>
    intro s s' h
    obtain ⟨smid, hf, hrest⟩ := foldE_ok_cons h
    exact htrans (hstep s a smid (List.mem_cons_self a l) hf)
      (ih (fun s a s' ha hf => hstep s a s' (List.mem_cons_of_mem _ ha) hf) hrest)

/-- Invariant preservation through a fold. -/
theorem foldE_inv {σ α : Type} (P : σ → Prop)
    {f : σ → α → Except String σ} {l : List α}
    (hstep : ∀ s a s', a ∈ l → P s → f s a = .ok s' → P s') :
    ∀ {s s'}, foldE f s l = .ok s' → P s → P s' := by
  induction l with
  | nil => intro s s' h hp; rw [foldE_nil] at h; cases h; exact hp
  | cons a l ih =>
    intro s s' h hp
    obtain ⟨smid, hf, hrest⟩ := foldE_ok_cons h
    exact ih (fun s a s' ha hps hf => hstep s a s' (List.mem_cons_of_mem _ ha) hps hf) hrest
      (hstep s a smid (List.mem_cons_self a l) hp hf)

theorem flush_out_dex_parts (cfg : InterDexCfg) (st : InterDexSt) (hplug : cfg.plugins = []) :
    (flush_out_dex cfg st).outdex = st.outdex ++ [st.det.outs]
    ∧ (flush_out_dex cfg st).det.outs = []
    ∧ (flush_out_dex cfg st).det.emitted = st.det.emitted
    ∧ (flush_out_dex cfg st).det.clookup = st.det.clookup
    ∧ (flush_out_dex cfg st).mixed_mode_info = st.mixed_mode_info := by
  simp [flush_out_dex, hplug, dex_emit_tracker.start_new_dex]

/-- Full characterisation of a successful secondary flush when no plugins
contribute classes: either the pending list was empty and nothing happened,
or the pending list - extended by the canary class when canaries are
emitted - became a new bin at the end of the output vector, the tracker was
reset, and the sets survive unchanged. -/
theorem flush_out_secondary_ok_cases {cfg : InterDexCfg} {st : InterDexSt}
    {dconfig : DexConfig} {m : Bool} {st' : InterDexSt} (hplug : cfg.plugins = [])
    (hwf : ∀ p ∈ st.det.clookup, p.2.name = p.1)
    (h : flush_out_secondary cfg st dconfig m = .ok st') :
    (st.det.outs = [] ∧ st' = st)
    ∨ (st.det.outs ≠ [] ∧
       ∃ extra : List DexClass,
         ((cfg.emit_canaries = false ∧ extra = []) ∨
          (cfg.emit_canaries = true ∧ st.outdex.length ≤ kMaxDexNum ∧
            ∃ cc, extra = [cc] ∧ cc.name = canary_name st.outdex.length ∧
              is_canary cc = true)) ∧
         st'.outdex = st.outdex ++ [st.det.outs ++ extra] ∧
         st'.det.outs = [] ∧
         st'.det.emitted = st.det.emitted ∧
         st'.det.clookup = st.det.clookup ∧
         st'.mixed_mode_info = st.mixed_mode_info) := by
  by_cases houts : st.det.outs = []
  · left
    refine ⟨houts, ?_⟩
    simp [flush_out_secondary, houts] at h
    exact h.symm
  · right
    refine ⟨houts, ?_⟩
    by_cases hcan : cfg.emit_canaries = true
    · by_cases hnum : st.outdex.length > kMaxDexNum
      · simp [flush_out_secondary, houts, hcan, hnum] at h
      · cases hlk : lookup_name st.det.clookup (canary_name st.outdex.length) with
        | some cc =>
          have hname : cc.name = canary_name st.outdex.length := by
            obtain ⟨p, hpmem, hp2, hp1⟩ := lookup_name_some _ _ _ hlk
            rw [← hp2, hwf p hpmem, hp1]
          refine ⟨[cc], Or.inr ⟨hcan, by omega, cc, rfl, hname,
            is_canary_of_name cc _ hname⟩, ?_⟩
          by_cases hmix : (m || is_mixed_mode_dex st dconfig) = true
          · by_cases hnm : st.num_mixed_mode_dexes = 0
            · simp [flush_out_secondary, houts, hcan, hnum, hlk, hmix, hnm] at h
              subst h
              simp [flush_out_dex, hplug, dex_emit_tracker.start_new_dex]
            · simp [flush_out_secondary, houts, hcan, hnum, hlk, hmix, hnm] at h
          · simp [flush_out_secondary, houts, hcan, hnum, hlk, hmix] at h
            subst h
            simp [flush_out_dex, hplug, dex_emit_tracker.start_new_dex]
        | none =>
          refine ⟨[make_canary_class (canary_name st.outdex.length)],
            Or.inr ⟨hcan, by omega, _, rfl, rfl,
              is_canary_of_name _ st.outdex.length rfl⟩, ?_⟩
          by_cases hmix : (m || is_mixed_mode_dex st dconfig) = true
          · by_cases hnm : st.num_mixed_mode_dexes = 0
            · simp [flush_out_secondary, houts, hcan, hnum, hlk, hmix, hnm] at h
              subst h
              simp [flush_out_dex, hplug, dex_emit_tracker.start_new_dex]
            · simp [flush_out_secondary, houts, hcan, hnum, hlk, hmix, hnm] at h
          · simp [flush_out_secondary, houts, hcan, hnum, hlk, hmix] at h
            subst h
            simp [flush_out_dex, hplug, dex_emit_tracker.start_new_dex]
    · refine ⟨[], Or.inl ⟨by simpa using hcan, rfl⟩, ?_⟩
      simp [flush_out_secondary, houts, hcan] at h
      subst h
      simp [flush_out_dex, hplug, dex_emit_tracker.start_new_dex]

theorem emit_class_ok_cases {cfg : InterDexCfg} {st : InterDexSt} {c : DexClass}
    {dconfig : DexConfig} {prim chk : Bool} {st' : InterDexSt}
    (h : emit_class cfg st c dconfig prim chk = .ok st') :
    st' = st
    ∨ (c.id ∉ st.det.emitted ∧ is_canary c = false ∧
        ∃ stm, (stm = st ∨ flush_out_secondary cfg st dconfig false = .ok stm) ∧
          st' = emit_update cfg stm c) := by
  unfold emit_class at h
  split at h
  · exact Or.inl (by injection h with h2; exact h2.symm)
  · rename_i hnot1
    split at h
    · exact Or.inl (by injection h with h2; exact h2.symm)
    · split at h
      · exact Or.inl (by injection h with h2; exact h2.symm)
      · push_neg at hnot1
        refine Or.inr ⟨hnot1.1, by simpa using hnot1.2, ?_⟩
        split at h
        · split at h
          · exact absurd h (by simp)
          · split at h
            · exact absurd h (by simp)
            · rename_i stm hflush
              injection h with h2
              exact ⟨stm, Or.inr hflush, h2.symm⟩
        · injection h with h2
          exact ⟨st, Or.inl rfl, h2.symm⟩

theorem emit_update_flat (cfg : InterDexCfg) (st : InterDexSt) (c : DexClass) :
    flat (emit_update cfg st c) = flat st ++ [c] := by
  simp [flat, emit_update]

theorem emit_update_parts (cfg : InterDexCfg) (st : InterDexSt) (c : DexClass) :
    (emit_update cfg st c).outdex = st.outdex
    ∧ (emit_update cfg st c).det.outs = st.det.outs ++ [c]
    ∧ (emit_update cfg st c).det.emitted = insert c.id st.det.emitted
    ∧ (emit_update cfg st c).det.clookup = st.det.clookup
    ∧ (emit_update cfg st c).mixed_mode_info = st.mixed_mode_info := by
  simp [emit_update]

theorem StExt_of_parts {s s' : InterDexSt} (h1 : s'.outdex = s.outdex)
    (h2 : s'.det.outs = s.det.outs) : StExt s s' := by
  constructor
  · rw [flat, flat, h1, h2]
  · rw [h1]

theorem flush_out_secondary_ok_flat {cfg : InterDexCfg} {st : InterDexSt}
    {dconfig : DexConfig} {m : Bool} {st' : InterDexSt} (hplug : cfg.plugins = [])
    (hwf : ∀ p ∈ st.det.clookup, p.2.name = p.1)
    (h : flush_out_secondary cfg st dconfig m = .ok st') :
    ∃ extra, flat st' = flat st ++ extra ∧ st.outdex <+: st'.outdex := by
  rcases flush_out_secondary_ok_cases hplug hwf h with ⟨_, heq⟩ |
    ⟨houts, extra, hex, hod, ho, _, _, _⟩
  · subst heq
    exact ⟨[], by simp, List.prefix_refl _⟩
  · refine ⟨extra, ?_, ?_⟩
    · rw [flat, hod, ho, flat]
      simp [List.flatten_append]
    · rw [hod]
      exact List.prefix_append _ _

theorem flush_out_secondary_ok_ext {cfg : InterDexCfg} {st : InterDexSt}
    {dconfig : DexConfig} {m : Bool} {st' : InterDexSt} (hplug : cfg.plugins = [])
    (hwf : ∀ p ∈ st.det.clookup, p.2.name = p.1)
    (h : flush_out_secondary cfg st dconfig m = .ok st') : StExt st st' := by
  obtain ⟨extra, hflat, hod⟩ := flush_out_secondary_ok_flat hplug hwf h
  exact ⟨⟨extra, hflat.symm⟩, hod⟩

theorem emit_class_ok_ext {cfg : InterDexCfg} {st : InterDexSt} {c : DexClass}
    {dconfig : DexConfig} {prim chk : Bool} {st' : InterDexSt} (hplug : cfg.plugins = [])
    (hwf : ∀ p ∈ st.det.clookup, p.2.name = p.1)
    (h : emit_class cfg st c dconfig prim chk = .ok st') : StExt st st' := by
  rcases emit_class_ok_cases h with heq | ⟨_, _, stm, hstm, heq⟩
  · rw [heq]
    exact StExt.refl _
  · rw [heq]
    have hmid : StExt st stm := by
      rcases hstm with rfl | hflush
      · exact StExt.refl _
      · exact flush_out_secondary_ok_ext hplug hwf hflush
    refine StExt.trans hmid ?_
    constructor
    · rw [emit_update_flat]
      exact List.prefix_append _ _
    · rw [(emit_update_parts cfg stm c).1]

theorem digitChar_inj : ∀ a < 10, ∀ b < 10, Nat.digitChar a = Nat.digitChar b → a = b := by
  decide

theorem canary_name_inj {i j : Nat} (hi : i ≤ kMaxDexNum) (hj : j ≤ kMaxDexNum)
    (h : canary_name i = canary_name j) : i = j := by
  unfold canary_name at h
  injection h with h2
  have h3 := List.append_cancel_left (List.append_cancel_right h2)
  have d1 : Nat.digitChar (i / 10) = Nat.digitChar (j / 10) := by
    injection h3 with e1 e2
  have d2 : Nat.digitChar (i % 10) = Nat.digitChar (j % 10) := by
    injection h3 with e1 e2
    injection e2 with e2 e3
  unfold kMaxDexNum at hi hj
  have hdiv := digitChar_inj (i / 10) (by omega) (j / 10) (by omega) d1
  have hmod := digitChar_inj (i % 10) (by omega) (j % 10) (by omega) d2
  omega

theorem ne_of_is_canary {a b : DexClass} (ha : is_canary a = false) (hb : is_canary b = true) :
    a ≠ b := by
  intro h
  rw [h, hb] at ha
  exact absurd ha (by simp)

/-- The inductive invariant of a plugin-free run whose mixed-mode class set
is empty, over the class pool `pool`: (1) placed non-canary classes are
recorded in `emitted`; (2) the placement order has no duplicates; (3) the
pending list is canary-free; (4) a canary placed in bin `i` carries the
canary descriptor of `i`, with `i` within the canary range; (5) placed
non-canary classes come from the pool; (6) every recorded id is either the
id of a canary-named pool class or the id of a placed non-canary class;
(7) the name index maps names to pool classes of that name; (8) the
mixed-mode set is and stays empty. -/
structure RunInv (pool : List DexClass) (st : InterDexSt) : Prop where
  mem_emitted : ∀ c ∈ flat st, is_canary c = false → c.id ∈ st.det.emitted
  nodup : (flat st).Nodup
  outs_no_canary : ∀ c ∈ st.det.outs, is_canary c = false
  bins_canary : ∀ i : Nat, ∀ hi : i < st.outdex.length, ∀ c ∈ st.outdex[i],
    is_canary c = true → i ≤ kMaxDexNum ∧ c.name = canary_name i
  provenance : ∀ c ∈ flat st, is_canary c = false → c ∈ pool
  emitted_covered : ∀ idv ∈ st.det.emitted,
    (∃ k ∈ pool, is_canary k = true ∧ k.id = idv) ∨
    (∃ c ∈ flat st, c.id = idv ∧ is_canary c = false)
  clookup_wf : ∀ p ∈ st.det.clookup, p.2.name = p.1 ∧ p.2 ∈ pool
  mixed_empty : st.mixed_mode_info.mixedModeClasses = []

theorem RunInv.wf_names {pool : List DexClass} {st : InterDexSt} (inv : RunInv pool st) :
    ∀ p ∈ st.det.clookup, p.2.name = p.1 :=
  fun p hp => (inv.clookup_wf p hp).1

theorem RunInv.not_mem_flat {pool : List DexClass} {st : InterDexSt} (inv : RunInv pool st)
    {c : DexClass} (hc : is_canary c = false) (hid : c.id ∉ st.det.emitted) : c ∉ flat st :=
  fun hmem => hid (inv.mem_emitted c hmem hc)

theorem RunInv.emit_update_inv {pool : List DexClass} {st : InterDexSt} (cfg : InterDexCfg)
    (inv : RunInv pool st) {c : DexClass} (hc : is_canary c = false)
    (hid : c.id ∉ st.det.emitted) (hpool : c ∈ pool) : RunInv pool (emit_update cfg st c) := by
  obtain ⟨hod, ho, he, hcl, hmm⟩ := emit_update_parts cfg st c
  have hflat := emit_update_flat cfg st c
  constructor
  · intro x hx hxc
    rw [hflat] at hx
    rw [he]
    rcases List.mem_append.1 hx with hx | hx
    · exact Finset.mem_insert_of_mem (inv.mem_emitted x hx hxc)
    · rw [List.mem_singleton.1 hx]
      exact Finset.mem_insert_self _ _
  · rw [hflat, List.nodup_append]
    exact ⟨inv.nodup, List.nodup_singleton c,
      fun x hx hx2 => inv.not_mem_flat hc hid ((List.mem_singleton.1 hx2) ▸ hx)⟩
  · intro x hx
    rw [ho] at hx
    rcases List.mem_append.1 hx with hx | hx
    · exact inv.outs_no_canary x hx
    · rw [List.mem_singleton.1 hx]
      exact hc
  · intro i hi x hx hxc
    rw [hod] at hi
    exact inv.bins_canary i hi x hx hxc
  · intro x hx hxc
    rw [hflat] at hx
    rcases List.mem_append.1 hx with hx | hx
    · exact inv.provenance x hx hxc
    · rw [List.mem_singleton.1 hx]
      exact hpool
  · intro idv hidv
    rw [he] at hidv
    rcases Finset.mem_insert.1 hidv with hidv | hidv
    · exact Or.inr ⟨c, by rw [hflat]; simp, hidv.symm, hc⟩
    · rcases inv.emitted_covered idv hidv with hcov | ⟨x, hx1, hx2, hx3⟩
      · exact Or.inl hcov
      · exact Or.inr ⟨x, by rw [hflat]; exact List.mem_append_left _ hx1, hx2, hx3⟩
  · intro p hp
    rw [hcl] at hp
    exact inv.clookup_wf p hp
  · rw [hmm]
    exact inv.mixed_empty

theorem RunInv.flush_inv {pool : List DexClass} {cfg : InterDexCfg} {st : InterDexSt}
    {dconfig : DexConfig} {m : Bool} {st' : InterDexSt} (hplug : cfg.plugins = [])
    (inv : RunInv pool st) (h : flush_out_secondary cfg st dconfig m = .ok st') :
    RunInv pool st' := by
  rcases flush_out_secondary_ok_cases hplug inv.wf_names h with ⟨_, heq⟩ |
    ⟨houts, extra, hex, hod, ho, he, hcl, hmm⟩
  · rw [heq]
    exact inv
  · have hflat : flat st' = flat st ++ extra := by
      rw [flat, hod, ho, flat]
      simp [List.flatten_append]
    have hextra_canary : ∀ x ∈ extra,
        is_canary x = true ∧ x.name = canary_name st.outdex.length := by
      rcases hex with ⟨_, rfl⟩ | ⟨_, _, cc, rfl, hname, hcanary⟩
      · intro x hx
        simp at hx
      · intro x hx
        rw [List.mem_singleton.1 hx]
        exact ⟨hcanary, hname⟩
    have hnum : extra ≠ [] → st.outdex.length ≤ kMaxDexNum := by
      rcases hex with ⟨_, rfl⟩ | ⟨_, hn, _, rfl, _, _⟩
      · intro hne
        exact absurd rfl hne
      · intro _
        exact hn
    have hextra_not_mem : ∀ x ∈ extra, x ∉ flat st := by
      intro x hx hmem
      obtain ⟨hxc, hxname⟩ := hextra_canary x hx
      rcases List.mem_append.1 hmem with hmem2 | hmem2
      · obtain ⟨L, hL, hxL⟩ := List.mem_flatten.1 hmem2
        obtain ⟨i, hi, hLi⟩ := List.mem_iff_getElem.1 hL
        obtain ⟨hile, hnamei⟩ := inv.bins_canary i hi x (hLi ▸ hxL) hxc
        have hle2 : st.outdex.length ≤ kMaxDexNum :=
          hnum (by intro he0; rw [he0] at hx; simp at hx)
        have heqn : canary_name i = canary_name st.outdex.length := by
          rw [← hnamei, hxname]
        have := canary_name_inj hile hle2 heqn
        omega
      · have := inv.outs_no_canary x hmem2
        rw [this] at hxc
        exact absurd hxc (by simp)
    constructor
    · intro x hx hxc
      rw [hflat] at hx
      rw [he]
      rcases List.mem_append.1 hx with hx | hx
      · exact inv.mem_emitted x hx hxc
      · rw [(hextra_canary x hx).1] at hxc
        exact absurd hxc (by simp)
    · rw [hflat, List.nodup_append]
      refine ⟨inv.nodup, ?_, fun x hx hx2 => hextra_not_mem x hx2 hx⟩
      rcases hex with ⟨_, rfl⟩ | ⟨_, _, cc, rfl, _, _⟩
      · exact List.nodup_nil
      · exact List.nodup_singleton cc
    · intro x hx
      rw [ho] at hx
      simp at hx
    · intro i hi x hx hxc
      have hlen : st'.outdex.length = st.outdex.length + 1 := by
        rw [hod, List.length_append, List.length_singleton]
      simp only [hod] at hx
      by_cases hilt : i < st.outdex.length
      · rw [List.getElem_append_left hilt] at hx
        exact inv.bins_canary i hilt x hx hxc
      · have hieq : i = st.outdex.length := by omega
        subst hieq
        have hconcat : (st.outdex ++ [st.det.outs ++ extra])[st.outdex.length] =
            st.det.outs ++ extra := by
          simp
        rw [hconcat] at hx
        rcases List.mem_append.1 hx with hx2 | hx2
        · have hfalse := inv.outs_no_canary x hx2
          rw [hfalse] at hxc
          exact absurd hxc (by simp)
        · obtain ⟨_, hxname⟩ := hextra_canary x hx2
          have hne : extra ≠ [] := by
            intro he0
            rw [he0] at hx2
            simp at hx2
          exact ⟨hnum hne, hxname⟩
    · intro x hx hxc
      rw [hflat] at hx
      rcases List.mem_append.1 hx with hx | hx
      · exact inv.provenance x hx hxc
      · rw [(hextra_canary x hx).1] at hxc
        exact absurd hxc (by simp)
    · intro idv hidv
      rw [he] at hidv
      rcases inv.emitted_covered idv hidv with hcov | ⟨x, hx1, hx2, hx3⟩
      · exact Or.inl hcov
      · exact Or.inr ⟨x, by rw [hflat]; exact List.mem_append_left _ hx1, hx2, hx3⟩
    · intro p hp
      rw [hcl] at hp
      exact inv.clookup_wf p hp
    · rw [hmm]
      exact inv.mixed_empty

theorem flush_out_secondary_ok_emitted {cfg : InterDexCfg} {st : InterDexSt}
    {dconfig : DexConfig} {m : Bool} {st' : InterDexSt} (hplug : cfg.plugins = [])
    (hwf : ∀ p ∈ st.det.clookup, p.2.name = p.1)
    (h : flush_out_secondary cfg st dconfig m = .ok st') :
    st'.det.emitted = st.det.emitted ∧ st'.det.clookup = st.det.clookup ∧
      st'.mixed_mode_info = st.mixed_mode_info := by
  rcases flush_out_secondary_ok_cases hplug hwf h with ⟨_, heq⟩ |
    ⟨_, _, _, _, _, he, hcl, hmm⟩
  · rw [heq]
    exact ⟨rfl, rfl, rfl⟩
  · exact ⟨he, hcl, hmm⟩

theorem RunInv.emit_class_inv {pool : List DexClass} {cfg : InterDexCfg} {st : InterDexSt}
    {c : DexClass} {dconfig : DexConfig} {prim chk : Bool} {st' : InterDexSt}
    (hplug : cfg.plugins = []) (inv : RunInv pool st)
    (hpool : is_canary c = false → c ∈ pool)
    (h : emit_class cfg st c dconfig prim chk = .ok st') : RunInv pool st' := by
  rcases emit_class_ok_cases h with heq | ⟨hid, hc, stm, hstm, heq⟩
  · rw [heq]
    exact inv
  · rw [heq]
    have invm : RunInv pool stm := by
      rcases hstm with rfl | hflush
      · exact inv
      · exact inv.flush_inv hplug hflush
    have hidm : c.id ∉ stm.det.emitted := by
      rcases hstm with rfl | hflush
      · exact hid
      · rw [(flush_out_secondary_ok_emitted hplug inv.wf_names hflush).1]
        exact hid
    exact invm.emit_update_inv cfg hc hidm (hpool hc)

theorem emit_class_emitted_mono {cfg : InterDexCfg} {st : InterDexSt} {c : DexClass}
    {dconfig : DexConfig} {prim chk : Bool} {st' : InterDexSt} (hplug : cfg.plugins = [])
    (hwf : ∀ p ∈ st.det.clookup, p.2.name = p.1)
    (h : emit_class cfg st c dconfig prim chk = .ok st') :
    st.det.emitted ⊆ st'.det.emitted := by
  rcases emit_class_ok_cases h with heq | ⟨hid, hc, stm, hstm, heq⟩
  · rw [heq]
  · rw [heq, (emit_update_parts cfg stm c).2.2.1]
    have hm : st.det.emitted = stm.det.emitted := by
      rcases hstm with rfl | hflush
      · rfl
      · exact ((flush_out_secondary_ok_emitted hplug hwf hflush).1).symm
    rw [hm]
    exact Finset.subset_insert _ _

theorem emit_class_self_emitted {cfg : InterDexCfg} {st : InterDexSt} {c : DexClass}
    {dconfig : DexConfig} {prim chk : Bool} {st' : InterDexSt} (hplug : cfg.plugins = [])
    (hmix : st.mixed_mode_info.mixedModeClasses = []) (hc : is_canary c = false)
    (h : emit_class cfg st c dconfig prim chk = .ok st') : c.id ∈ st'.det.emitted := by
  unfold emit_class at h
  split at h
  · rename_i hcond
    rcases hcond with hcond | hcond
    · injection h with h2
      rw [← h2]
      exact hcond
    · rw [hc] at hcond
      exact absurd hcond (by simp)
  · split at h
    · rename_i h2
      rw [should_skip_class, hplug] at h2
      simp at h2
    · split at h
      · rename_i h3
        rw [MixedModeInfo.is_mixed_mode_class, hmix] at h3
        simp at h3
      · split at h
        · split at h
          · exact absurd h (by simp)
          · split at h
            · exact absurd h (by simp)
            · injection h with h2
              rw [← h2, (emit_update_parts cfg _ c).2.2.1]
              exact Finset.mem_insert_self _ _
        · injection h with h2
          rw [← h2, (emit_update_parts cfg _ c).2.2.1]
          exact Finset.mem_insert_self _ _

theorem RunInv.congr_inv {pool : List DexClass} {st st' : InterDexSt} (inv : RunInv pool st)
    (hdet : st'.det = st.det) (hod : st'.outdex = st.outdex)
    (hmm : st'.mixed_mode_info = st.mixed_mode_info) : RunInv pool st' := by
  have hflat : flat st' = flat st := by
    rw [flat, flat, hdet, hod]
  constructor
  · rw [hflat, hdet]
    exact inv.mem_emitted
  · rw [hflat]
    exact inv.nodup
  · rw [hdet]
    exact inv.outs_no_canary
  · intro i hi x hx hxc
    rw [hod] at hi
    have hx2 : x ∈ st.outdex[i] := by
      simp only [hod] at hx
      exact hx
    exact inv.bins_canary i hi x hx2 hxc
  · rw [hflat]
    exact inv.provenance
  · rw [hflat, hdet]
    exact inv.emitted_covered
  · rw [hdet]
    exact inv.clookup_wf
  · rw [hmm]
    exact inv.mixed_empty

/-- The per-step contract of every driver operation in a plugin-free run:
assuming the invariant on entry, the invariant holds on exit, the placement
is an extension, and the emitted set only grows. -/
def StepOk (pool : List DexClass) (s s' : InterDexSt) : Prop :=
  RunInv pool s → RunInv pool s' ∧ StExt s s' ∧ s.det.emitted ⊆ s'.det.emitted

theorem StepOk.rfl {pool : List DexClass} {s : InterDexSt} : StepOk pool s s :=
  fun inv => ⟨inv, StExt.refl s, Finset.Subset.refl _⟩

theorem StepOk.comp {pool : List DexClass} {a b c : InterDexSt} (h1 : StepOk pool a b)
    (h2 : StepOk pool b c) : StepOk pool a c := by
  intro inv
  obtain ⟨invb, extab, subab⟩ := h1 inv
  obtain ⟨invc, extbc, subbc⟩ := h2 invb
  exact ⟨invc, extab.trans extbc, subab.trans subbc⟩

theorem emit_class_step {pool : List DexClass} {cfg : InterDexCfg} {c : DexClass}
    {dconfig : DexConfig} {prim chk : Bool} (hplug : cfg.plugins = [])
    {s s' : InterDexSt} (hpool : is_canary c = false → c ∈ pool)
    (h : emit_class cfg s c dconfig prim chk = .ok s') : StepOk pool s s' := by
  intro inv
  exact ⟨inv.emit_class_inv hplug hpool h, emit_class_ok_ext hplug inv.wf_names h,
    emit_class_emitted_mono hplug inv.wf_names h⟩

theorem lookup_name_pool {pool : List DexClass} {s : InterDexSt} (inv : RunInv pool s)
    {nm : String} {c : DexClass} (hlk : lookup_name s.det.clookup nm = some c) : c ∈ pool := by
  obtain ⟨p, hpmem, hp2, _⟩ := lookup_name_some _ _ _ hlk
  rw [← hp2]
  exact (inv.clookup_wf p hpmem).2

theorem flush_step {pool : List DexClass} {cfg : InterDexCfg} {dconfig : DexConfig} {m : Bool}
    (hplug : cfg.plugins = []) {s s' : InterDexSt}
    (h : flush_out_secondary cfg s dconfig m = .ok s') : StepOk pool s s' := by
  intro inv
  exact ⟨inv.flush_inv hplug h, flush_out_secondary_ok_ext hplug inv.wf_names h,
    (flush_out_secondary_ok_emitted hplug inv.wf_names h).1.ge⟩

theorem congr_step {pool : List DexClass} {s s' : InterDexSt} (hdet : s'.det = s.det)
    (hod : s'.outdex = s.outdex)
    (hmm : s'.mixed_mode_info.mixedModeClasses = s.mixed_mode_info.mixedModeClasses) :
    StepOk pool s s' := by
  intro inv
  refine ⟨?_, StExt_of_parts hod (by rw [hdet]), by rw [hdet]⟩
  have hflat : flat s' = flat s := by rw [flat, flat, hdet, hod]
  constructor
  · rw [hflat, hdet]
    exact inv.mem_emitted
  · rw [hflat]
    exact inv.nodup
  · rw [hdet]
    exact inv.outs_no_canary
  · intro i hi x hx hxc
    rw [hod] at hi
    have hx2 : x ∈ s.outdex[i] := by
      simp only [hod] at hx
      exact hx
    exact inv.bins_canary i hi x hx2 hxc
  · rw [hflat]
    exact inv.provenance
  · rw [hflat, hdet]
    exact inv.emitted_covered
  · rw [hdet]
    exact inv.clookup_wf
  · rw [hmm]
    exact inv.mixed_empty

theorem walk_step_marker_ok {pool : List DexClass} {cfg : InterDexCfg} {ctx : WalkCtx}
    {acc : WalkAcc} {i : Nat} {e : String} {acc1 : WalkAcc} (hplug : cfg.plugins = [])
    (hinv : RunInv pool acc.st) (h : walk_step_marker cfg ctx acc i e = .ok acc1) :
    StepOk pool acc.st acc1.st := by
  unfold walk_step_marker at h
  split at h
  · split at h
    · exact absurd h (by simp)
    · rename_i st1 hflush
      have hpred : st1.mixed_mode_info.has_predefined_classes = false := by
        rw [(flush_out_secondary_ok_emitted hplug hinv.wf_names hflush).2.2,
          MixedModeInfo.has_predefined_classes, hinv.mixed_empty]
        rfl
      rw [if_neg (by rw [hpred]; simp)] at h
      injection h with h2
      rw [← h2]
      exact (flush_step hplug hflush).comp (congr_step rfl rfl rfl)
  · injection h with h2
    rw [← h2]
    exact StepOk.rfl

theorem walk_step_scroll_ok {pool : List DexClass} {cfg : InterDexCfg} {ctx : WalkCtx}
    {acc1 : WalkAcc} {i : Nat} {acc2 : WalkAcc} (hplug : cfg.plugins = [])
    (h : walk_step_scroll cfg ctx acc1 i = .ok acc2) : StepOk pool acc1.st acc2.st := by
  unfold walk_step_scroll at h
  split at h
  · split at h
    · exact absurd h (by simp)
    · rename_i st2 hflush
      injection h with h2
      rw [← h2]
      exact (flush_step hplug hflush).comp (congr_step rfl rfl rfl)
  · injection h with h2
    rw [← h2]
    exact StepOk.rfl

theorem walk_step_class_ok {pool : List DexClass} {cfg : InterDexCfg} {ctx : WalkCtx}
    {acc : WalkAcc} {i : Nat} {clazz : DexClass} {acc' : WalkAcc} (hplug : cfg.plugins = [])
    (hinv : RunInv pool acc.st) (hpool : clazz ∈ pool)
    (h : walk_step_class cfg ctx acc i clazz = .ok acc') : StepOk pool acc.st acc'.st := by
  unfold walk_step_class at h
  have hmix : acc.st.mixed_mode_info.is_mixed_mode_class clazz = false := by
    rw [MixedModeInfo.is_mixed_mode_class, hinv.mixed_empty]
    rfl
  split at h
  · rename_i e heq
    rw [hmix] at heq
    simp at heq
  · rename_i st1 heq
    rw [hmix] at heq
    simp at heq
    subst heq
    split at h
    · injection h with h2
      rw [← h2]
      exact congr_step rfl rfl rfl
    · split at h
      · exact absurd h (by simp)
      · rename_i st2 hemit
        injection h with h2
        rw [← h2]
        exact emit_class_step hplug (fun _ => hpool) hemit

theorem walk_step_ok {pool : List DexClass} {cfg : InterDexCfg} {ctx : WalkCtx}
    {acc acc' : WalkAcc} {ie : Nat × String} (hplug : cfg.plugins = [])
    (hinv : RunInv pool acc.st) (h : walk_step cfg ctx acc ie = .ok acc') :
    StepOk pool acc.st acc'.st := by
  unfold walk_step at h
  split at h
  case h_1 =>
    split at h
    · exact absurd h (by simp)
    · rename_i acc1 hmark
      exact (walk_step_marker_ok hplug hinv hmark).comp (walk_step_scroll_ok hplug h)
  case h_2 clazz hlk =>
    exact walk_step_class_ok hplug hinv (lookup_name_pool hinv hlk) h

theorem foldE_stepok {pool : List DexClass} {α : Type}
    {f : InterDexSt → α → Except String InterDexSt} {l : List α}
    (hstep : ∀ t a t', a ∈ l → RunInv pool t → f t a = .ok t' → StepOk pool t t') :
    ∀ {s s' : InterDexSt}, foldE f s l = .ok s' → StepOk pool s s' := by
  induction l with
  | nil =>
    intro s s' h
    rw [foldE_nil] at h
    cases h
    exact StepOk.rfl
  | cons a l ih =>
    intro s s' h
    obtain ⟨smid, hf, hrest⟩ := foldE_ok_cons h
    intro inv
    have h1 := hstep s a smid (List.mem_cons_self a l) inv hf inv
    have h2 := ih (fun t b t' hb => hstep t b t' (List.mem_cons_of_mem _ hb)) hrest h1.1
    exact ⟨h2.1, h1.2.1.trans h2.2.1, h1.2.2.trans h2.2.2⟩

theorem foldE_walk_stepok {pool : List DexClass} {cfg : InterDexCfg} {ctx : WalkCtx}
    (hplug : cfg.plugins = []) {l : List (Nat × String)} :
    ∀ {acc acc' : WalkAcc}, foldE (walk_step cfg ctx) acc l = .ok acc' →
      StepOk pool acc.st acc'.st := by
  induction l with
  | nil =>
    intro acc acc' h
    rw [foldE_nil] at h
    cases h
    exact StepOk.rfl
  | cons a l ih =>
    intro acc acc' h
    obtain ⟨amid, hf, hrest⟩ := foldE_ok_cons h
    intro inv
    have h1 := walk_step_ok hplug inv hf inv
    have h2 := ih hrest h1.1
    exact ⟨h2.1, h1.2.1.trans h2.2.1, h1.2.2.trans h2.2.2⟩

/-- Folding `emit_class` over a list of pool classes preserves the
invariant and ends with every non-canary list element recorded in
`emitted`. -/
theorem foldE_emit_covers {pool : List DexClass} {cfg : InterDexCfg} {dconfig : DexConfig}
    {prim chk : Bool} (hplug : cfg.plugins = []) {l : List DexClass}
    (hpool : ∀ c ∈ l, is_canary c = false → c ∈ pool) :
    ∀ {s s' : InterDexSt}, foldE (emit_step cfg dconfig prim chk) s l = .ok s' →
    RunInv pool s →
    RunInv pool s' ∧ StExt s s' ∧ s.det.emitted ⊆ s'.det.emitted ∧
      ∀ c ∈ l, is_canary c = false → c.id ∈ s'.det.emitted := by
  induction l with
  | nil =>
    intro s s' h inv
    rw [foldE_nil] at h
    cases h
    exact ⟨inv, StExt.refl _, Finset.Subset.refl _, by simp⟩
  | cons a l ih =>
    intro s s' h inv
    obtain ⟨smid, hf, hrest⟩ := foldE_ok_cons h
    have hstep := emit_class_step hplug
      (fun hca => hpool a (List.mem_cons_self a l) hca) hf inv
    have hid : is_canary a = false → a.id ∈ smid.det.emitted := fun hca =>
      emit_class_self_emitted hplug inv.mixed_empty hca hf
    have hih := ih (fun c hc => hpool c (List.mem_cons_of_mem _ hc)) hrest hstep.1
    refine ⟨hih.1, hstep.2.1.trans hih.2.1, hstep.2.2.trans hih.2.2.1, ?_⟩
    intro c hc hcc
    rcases List.mem_cons.1 hc with rfl | hc
    · exact hih.2.2.1 (hid hcc)
    · exact hih.2.2.2 c hc hcc

theorem lookup_build_clookup_mem {dx : List (List DexClass)} {n : String} {c : DexClass}
    (h : lookup_name (build_clookup dx) n = some c) : c ∈ dx.flatten ∧ c.name = n := by
  obtain ⟨p, hpmem, hp2, hp1⟩ := lookup_name_some _ _ _ h
  rw [build_clookup] at hpmem
  obtain ⟨x, hx, hxe⟩ := List.mem_map.1 hpmem
  have hx2 : x = c := by rw [← hp2, ← hxe]
  subst hx2
  refine ⟨hx, ?_⟩
  rw [← hp1, ← hxe]

theorem build_clookup_wf {dx : List (List DexClass)} {pool : List DexClass}
    (hsub : ∀ a ∈ dx.flatten, a ∈ pool) :
    ∀ p ∈ build_clookup dx, p.2.name = p.1 ∧ p.2 ∈ pool := by
  intro p hp
  rw [build_clookup] at hp
  obtain ⟨c, hc, rfl⟩ := List.mem_map.1 hp
  exact ⟨rfl, hsub c hc⟩

/-- The invariant at a fresh state holding only a name index over a
sub-partition of the pool. -/
theorem RunInv_start {pool : List DexClass} (dx : List (List DexClass)) (m : MixedModeInfo)
    (hmix : m.mixedModeClasses = []) (hsub : ∀ a ∈ dx.flatten, a ∈ pool) :
    RunInv pool { det := { clookup := build_clookup dx }, mixed_mode_info := m } := by
  constructor
  · intro c hc _
    exact absurd hc (by simp [flat])
  · simp [flat]
  · intro c hc
    exact absurd hc (by simp)
  · intro i hi
    exact absurd hi (by simp)
  · intro c hc _
    exact absurd hc (by simp [flat])
  · intro idv hidv
    exact absurd hidv (by simp)
  · exact build_clookup_wf hsub
  · exact hmix

theorem headD_subset_scope (cfg : InterDexCfg) :
    ∀ a ∈ cfg.dexen.headD [], a ∈ build_class_scope cfg.dexen := by
  cases hdx : cfg.dexen with
  | nil =>
    intro a ha
    exact absurd ha (by simp)
  | cons d t =>
    intro a ha
    rw [build_class_scope]
    simp only [List.headD_cons] at ha
    simp only [List.flatten_cons, List.mem_append]
    exact Or.inl ha

/-- Sealing the primary tracker (lines 371-377): the flushed inner tracker
becomes output bin 0, and the main tracker restarts with the full name
index and all primary ids recorded, preserving the invariant. -/
theorem primary_seal_inv {cfg : InterDexCfg} {st2 : InterDexSt} (hplug : cfg.plugins = [])
    (inv2 : RunInv (cfg.dexen.headD []) st2)
    (hcov : ∀ c ∈ cfg.dexen.headD [], is_canary c = false → c.id ∈ st2.det.emitted)
    {stP : InterDexSt} (houts : stP.det.outs = [])
    (hcl : stP.det.clookup = build_clookup cfg.dexen)
    (hem : stP.det.emitted = ∅ ∪ ((cfg.dexen.headD []).map (·.id)).toFinset)
    (hod : stP.outdex = st2.outdex ++ [st2.det.outs])
    (hmm : stP.mixed_mode_info = st2.mixed_mode_info) :
    RunInv (build_class_scope cfg.dexen) stP := by
  have hhd := headD_subset_scope cfg
  have hflatP : flat stP = flat st2 := by
    rw [flat, flat, hod, houts]
    simp [List.flatten_append]
  have hemm : stP.det.emitted = ((cfg.dexen.headD []).map (·.id)).toFinset := by
    rw [hem, Finset.empty_union]
  constructor
  · intro c hc hcc
    rw [hflatP] at hc
    have hmem := inv2.provenance c hc hcc
    rw [hemm, List.mem_toFinset]
    exact List.mem_map_of_mem _ hmem
  · rw [hflatP]
    exact inv2.nodup
  · intro c hc
    rw [houts] at hc
    exact absurd hc (by simp)
  · intro i hi x hx hxc
    rw [hod] at hi
    simp only [hod] at hx
    by_cases hilt : i < st2.outdex.length
    · rw [List.getElem_append_left hilt] at hx
      exact inv2.bins_canary i hilt x hx hxc
    · have hieq : i = st2.outdex.length := by
        rw [List.length_append, List.length_singleton] at hi
        omega
      subst hieq
      have hconcat : (st2.outdex ++ [st2.det.outs])[st2.outdex.length] = st2.det.outs := by
        simp
      rw [hconcat] at hx
      have hfalse := inv2.outs_no_canary x hx
      rw [hfalse] at hxc
      exact absurd hxc (by simp)
  · intro c hc hcc
    rw [hflatP] at hc
    exact hhd c (inv2.provenance c hc hcc)
  · intro idv hidv
    rw [hemm, List.mem_toFinset] at hidv
    obtain ⟨c, hcmem, hcid⟩ := List.mem_map.1 hidv
    by_cases hcan : is_canary c = true
    · exact Or.inl ⟨c, hhd c hcmem, hcan, hcid⟩
    · have hcan2 : is_canary c = false := by
        cases h2 : is_canary c
        · rfl
        · exact absurd h2 hcan
      have hcemit := hcov c hcmem hcan2
      rcases inv2.emitted_covered c.id hcemit with ⟨k, hk1, hk2, hk3⟩ | ⟨x, hx1, hx2, hx3⟩
      · exact Or.inl ⟨k, hhd k hk1, hk2, by rw [hk3, hcid]⟩
      · exact Or.inr ⟨x, by rw [hflatP]; exact hx1, by rw [hx2, hcid], hx3⟩
  · intro p hp
    rw [hcl] at hp
    exact build_clookup_wf (fun a ha => ha) p hp
  · rw [hmm]
    exact inv2.mixed_empty

/-- Phase 1 establishes the invariant over the full class universe, from
either branch of `run_primary`, at the initial state of `InterDex::run`. -/
theorem run_primary_inv {cfg : InterDexCfg} {iorder0 : List String} {unref : Finset Nat}
    {stP : InterDexSt} (hplug : cfg.plugins = [])
    (hmix : cfg.mixed_mode_info.mixedModeClasses = [])
    (h : run_primary cfg iorder0 unref
      { det := { clookup := build_clookup cfg.dexen },
        mixed_mode_info := cfg.mixed_mode_info } = .ok stP) :
    RunInv (build_class_scope cfg.dexen) stP := by
  unfold run_primary at h
  split at h
  · injection h with h2
    rw [← h2]
    exact RunInv_start cfg.dexen cfg.mixed_mode_info hmix (fun a ha => ha)
  · split at h
    · exact absurd h (by simp)
    · rename_i st1 hf1
      split at h
      · exact absurd h (by simp)
      · rename_i st2 hf2
        injection h with h2
        have inv0 : RunInv (cfg.dexen.headD [])
            { det := { clookup := build_clookup [cfg.dexen.headD []] },
              mixed_mode_info := cfg.mixed_mode_info } :=
          RunInv_start [cfg.dexen.headD []] _ hmix (by intro a ha; simpa using ha)
        have hstep1 : ∀ t a t', a ∈ iorder0 → RunInv (cfg.dexen.headD []) t →
            run_primary_step cfg unref t a = .ok t' →
            StepOk (cfg.dexen.headD []) t t' := by
          intro t a t' _ invt hf
          unfold run_primary_step at hf
          split at hf
          · injection hf with h3
            rw [← h3]
            exact StepOk.rfl
          · rename_i clazz hlk
            split at hf
            · injection hf with h3
              rw [← h3]
              exact congr_step rfl rfl rfl
            · have hcm := lookup_build_clookup_mem hlk
              have hmem : clazz ∈ cfg.dexen.headD [] := by simpa using hcm.1
              exact emit_class_step hplug (fun _ => hmem) hf
        have hw1 := foldE_stepok hstep1 hf1 inv0
        have hcov2 := foldE_emit_covers hplug (fun c hc _ => hc) hf2 hw1.1
        rw [← h2]
        exact primary_seal_inv hplug hcov2.1 hcov2.2.2.2 rfl rfl rfl
          (flush_out_dex_parts cfg st2 hplug).1
          (flush_out_dex_parts cfg st2 hplug).2.2.2.2

theorem post_counters_stepok {pool : List DexClass} {b : Bool} {stB : InterDexSt} :
    StepOk pool stB (post_counters b stB) := by
  unfold post_counters
  split
  · exact congr_step rfl rfl rfl
  · exact StepOk.rfl

/-- Phase 3 preserves the invariant, ends with an empty pending list, and -
through the full-scope walk of lines 549-554 - leaves every non-canary
class of the universe recorded in `emitted`. -/
theorem run_post_walk_ok {cfg : InterDexCfg} {ctx : WalkCtx} {acc : WalkAcc}
    {stF : InterDexSt} (hplug : cfg.plugins = []) (h : run_post_walk cfg ctx acc = .ok stF)
    (inv : RunInv (build_class_scope cfg.dexen) acc.st) :
    RunInv (build_class_scope cfg.dexen) stF ∧ StExt acc.st stF ∧ stF.det.outs = [] ∧
      ∀ c ∈ build_class_scope cfg.dexen, is_canary c = false → c.id ∈ stF.det.emitted := by
  have hcond : ¬(acc.st.mixed_mode_info.has_predefined_classes = true ∧
      ctx.last_end_idx = ctx.iorder.length) := by
    rw [MixedModeInfo.has_predefined_classes, inv.mixed_empty]
    simp
  unfold run_post_walk at h
  split at h
  · rename_i e heq
    rw [if_neg hcond] at heq
    exact absurd heq (by simp)
  · rename_i stA heq
    rw [if_neg hcond] at heq
    injection heq with heq2
    subst heq2
    split at h
    · exact absurd h (by simp)
    · rename_i stB hfB
      have hstepB : ∀ t a t', a ∈ ctx.iorder →
          RunInv (build_class_scope cfg.dexen) t →
          run_post_step cfg ctx.unreferenced t a = .ok t' →
          StepOk (build_class_scope cfg.dexen) t t' := by
        intro t a t' _ invt hf
        unfold run_post_step at hf
        split at hf
        · injection hf with h3
          rw [← h3]
          exact StepOk.rfl
        · rename_i clazz hlk
          split at hf
          · exact emit_class_step hplug (fun _ => lookup_name_pool invt hlk) hf
          · injection hf with h3
            rw [← h3]
            exact StepOk.rfl
      have hwB := foldE_stepok hstepB hfB inv
      split at h
      · exact absurd h (by simp)
      · rename_i stC hfC
        have hwBC := @post_counters_stepok (build_class_scope cfg.dexen)
          acc.end_markers_present stB hwB.1
        have hwC := foldE_emit_covers hplug (fun c hc _ => hc) hfC hwBC.1
        split at h
        · exact absurd h (by simp)
        · rename_i stD hfD
          rw [hplug, foldE_nil] at hfD
          injection hfD with hfD2
          subst hfD2
          have hextC : StExt acc.st stC :=
            (hwB.2.1.trans hwBC.2.1).trans hwC.2.1
          split at h
          · rename_i hout0
            injection h with h3
            rw [← h3]
            exact ⟨hwC.1, hextC, hout0, hwC.2.2.2⟩
          · rename_i hout0
            have hfs := @flush_step (build_class_scope cfg.dexen) cfg s_empty_config
              false hplug stC stF h hwC.1
            have houtsF : stF.det.outs = [] := by
              rcases flush_out_secondary_ok_cases hplug hwC.1.wf_names h with ⟨h0, _⟩ |
                ⟨_, _, _, _, ho, _, _, _⟩
              · exact absurd h0 hout0
              · exact ho
            exact ⟨hfs.1, hextC.trans hfs.2.1, houtsF,
              fun c hc hcc => hfs.2.2 (hwC.2.2.2 c hc hcc)⟩

theorem foldE_const {σ α : Type} {f : σ → α → Except String σ}
    (hf : ∀ s a, f s a = .ok s) : ∀ (s : σ) (l : List α), foldE f s l = .ok s := by
  intro s l
  induction l with
  | nil => rfl
  | cons a l ih =>
    rw [foldE_cons, hf]
    exact ih

/-- With no primary classes at all, phase 1 seals the empty pending list
into an (empty) bin 0. -/
theorem run_primary_empty_outdex {cfg : InterDexCfg} {iorder0 : List String}
    {unref : Finset Nat} {stP : InterDexSt} (hplug : cfg.plugins = [])
    (hnp : cfg.normal_primary_dex = false) (hhd : cfg.dexen.headD [] = [])
    (h : run_primary cfg iorder0 unref
      { det := { clookup := build_clookup cfg.dexen },
        mixed_mode_info := cfg.mixed_mode_info } = .ok stP) :
    stP.outdex = [[]] := by
  unfold run_primary at h
  rw [if_neg (by rw [hnp]; simp)] at h
  have hstep : ∀ (s : InterDexSt) (a : String), run_primary_step cfg unref s a = .ok s := by
    intro s a
    unfold run_primary_step
    rw [hhd]
    rfl
  split at h
  · rename_i e heq
    rw [foldE_const hstep] at heq
    exact absurd heq (by simp)
  · rename_i st1 heq
    rw [foldE_const hstep] at heq
    injection heq with heq2
    split at h
    · rename_i e heq3
      rw [hhd, foldE_nil] at heq3
      exact absurd heq3 (by simp)
    · rename_i st2 heq3
      rw [hhd, foldE_nil] at heq3
      injection heq3 with heq4
      subst heq4
      subst heq2
      injection h with h2
      rw [← h2]
      rw [(flush_out_dex_parts cfg _ hplug).1]
      rfl

/-- The master decomposition of a successful plugin-free run with an empty
mixed-mode set: the pruner returned, phase 1 sealed a primary state, the
final state satisfies the invariant, extends the primary state, has an
empty pending list, and records every non-canary class of the universe. -/
theorem run_ok_inv {cfg : InterDexCfg} {reorder : List DexClass → List DexClass}
    {fuel : Nat} {stF : InterDexSt} (hplug : cfg.plugins = [])
    (hmix : cfg.mixed_mode_info.mixedModeClasses = [])
    (h : run cfg reorder fuel = some (.ok stF)) :
    ∃ unref stP,
      find_unrefenced_coldstart_classes (build_class_scope cfg.dexen)
        (build_clookup cfg.dexen) cfg.coldstart_list cfg.static_prune_classes reorder fuel
        = some unref
      ∧ run_primary cfg cfg.coldstart_list unref
          { det := { clookup := build_clookup cfg.dexen },
            mixed_mode_info := cfg.mixed_mode_info } = .ok stP
      ∧ RunInv (build_class_scope cfg.dexen) stF
      ∧ StExt stP stF
      ∧ stF.det.outs = []
      ∧ ∀ c ∈ build_class_scope cfg.dexen, is_canary c = false →
          c.id ∈ stF.det.emitted := by
  unfold run at h
  split at h
  · exact absurd h (by simp)
  · rename_i unref hfind
    injection h with h2
    split at h2
    · exact absurd h2 (by simp)
    · rename_i stP hprim
      split at h2
      · exact absurd h2 (by simp)
      · rename_i accF hwalk
        have invP := run_primary_inv hplug hmix hprim
        have hwk := foldE_walk_stepok hplug hwalk invP
        obtain ⟨invW, extW, _⟩ := hwk
        obtain ⟨invF, extF, houts, hcov⟩ := run_post_walk_ok hplug h2 invW
        exact ⟨unref, stP, hfind, hprim, invF, extW.trans extF, houts, hcov⟩

/-- C3 (amended): in a plugin-free run whose mixed-mode set is empty and
whose input universe has no duplicate ids, the output bins of a successful
run place every non-canary input class in exactly one bin (its flattened
occurrence count is one and the flattened output has no duplicates, so the
bins are pairwise disjoint), and every placed class is an input class or a
synthetic canary.  Canary-named input classes are excluded: `emit_class`
drops them, which `c3_partition_cex` demonstrates against the claim's
unqualified "every class". -/
theorem c3_partition {cfg : InterDexCfg} {reorder : List DexClass → List DexClass}
    {fuel : Nat} {stF : InterDexSt} (hplug : cfg.plugins = [])
    (hmix : cfg.mixed_mode_info.mixedModeClasses = [])
    (hids : ((build_class_scope cfg.dexen).map DexClass.id).Nodup)
    (h : run cfg reorder fuel = some (.ok stF)) :
    stF.outdex.flatten.Nodup
    ∧ (∀ c ∈ build_class_scope cfg.dexen, is_canary c = false →
        stF.outdex.flatten.count c = 1)
    ∧ (∀ x ∈ stF.outdex.flatten, x ∈ build_class_scope cfg.dexen ∨ is_canary x = true) := by
  obtain ⟨unref, stP, _, _, invF, _, houts, hcov⟩ := run_ok_inv hplug hmix h
  have hflat : flat stF = stF.outdex.flatten := by
    rw [flat, houts, List.append_nil]
  have hnd : stF.outdex.flatten.Nodup := by
    rw [← hflat]
    exact invF.nodup
  have hinj : ∀ x ∈ build_class_scope cfg.dexen, ∀ y ∈ build_class_scope cfg.dexen,
      x.id = y.id → x = y := fun x hx y hy hxy => List.inj_on_of_nodup_map hids hx hy hxy
  have hmem : ∀ c ∈ build_class_scope cfg.dexen, is_canary c = false →
      c ∈ stF.outdex.flatten := by
    intro c hc hcc
    rcases invF.emitted_covered c.id (hcov c hc hcc) with ⟨k, hk1, hk2, hk3⟩ |
      ⟨x, hx1, hx2, hx3⟩
    · have hck : c = k := hinj c hc k hk1 hk3.symm
      rw [hck, hk2] at hcc
      exact absurd hcc (by simp)
    · have hxscope := invF.provenance x hx1 hx3
      have hxc : x = c := hinj x hxscope c hc hx2
      rw [← hxc, ← hflat]
      exact hx1
  refine ⟨hnd, ?_, ?_⟩
  · intro c hc hcc
    exact List.count_eq_one_of_mem hnd (hmem c hc hcc)
  · intro x hx
    by_cases hxc : is_canary x = true
    · exact Or.inr hxc
    · refine Or.inl (invF.provenance x (by rw [hflat]; exact hx) ?_)
      cases h2 : is_canary x
      · rfl
      · exact absurd h2 hxc

def c3A : DexClass :=
  ⟨31, "LAThree;", false, some "Ljava/lang/Object;", 0, 0, 0, [], [], true, [], []⟩

def c3K : DexClass :=
  ⟨32, canary_name 0, true, some "Ljava/lang/Object;", 0, 0, 0, [], [], false, [], []⟩

def c3CexCfg : InterDexCfg :=
  ⟨[[c3A, c3K]], [], [], 10000, false, true, false, false, {}⟩

/-- C3 (counterexample): an input class whose descriptor is canary-shaped
is a member of the input universe yet appears in no output bin - the union
of the bins is a proper subset of the input universe, refuting the claimed
equality for every run. -/
theorem c3_partition_cex :
    c3K ∈ build_class_scope c3CexCfg.dexen
    ∧ run_bins c3CexCfg id 10 = some [[c3A]]
    ∧ c3K ∉ [[c3A]].flatten := by
  refine ⟨by decide, rfl, by decide⟩

def c3WCfg : InterDexCfg := ⟨[[c3A]], [], [], 10000, false, true, false, false, {}⟩

def c3WSt : InterDexSt :=
  match run c3WCfg id 10 with
  | some (.ok st) => st
  | _ => {}

theorem c3_partition_witness :
    c3WSt.outdex.flatten.Nodup ∧ c3WSt.outdex.flatten.count c3A = 1 :=
  ⟨(@c3_partition c3WCfg id 10 c3WSt rfl rfl (by decide) rfl).1,
   (@c3_partition c3WCfg id 10 c3WSt rfl rfl (by decide) rfl).2.1 c3A (by decide) rfl⟩

/-- C10: the never-emit-empty-bins guard is the secondary flusher's alone -
`flush_out_secondary` returns the state unchanged on an empty pending list,
while `flush_out_dex` unconditionally appends a bin; consequently a
successful plugin-free run over an empty primary input dex (under the
untouchable-primary regime) emits an empty bin 0. -/
theorem c10_empty_bin_guard :
    (∀ (cfg : InterDexCfg) (st : InterDexSt) (dconfig : DexConfig) (m : Bool),
      st.det.outs = [] → flush_out_secondary cfg st dconfig m = .ok st)
    ∧ (∀ (cfg : InterDexCfg) (st : InterDexSt),
      (flush_out_dex cfg st).outdex.length = st.outdex.length + 1)
    ∧ (∀ (cfg : InterDexCfg) (reorder : List DexClass → List DexClass) (fuel : Nat)
        (stF : InterDexSt), cfg.plugins = [] →
        cfg.mixed_mode_info.mixedModeClasses = [] →
        cfg.normal_primary_dex = false → cfg.dexen.headD [] = [] →
        run cfg reorder fuel = some (.ok stF) →
        ∃ bins, stF.outdex = [] :: bins) := by
  refine ⟨?_, ?_, ?_⟩
  · intro cfg st dconfig m h0
    unfold flush_out_secondary
    rw [if_pos h0]
  · intro cfg st
    unfold flush_out_dex
    simp
  · intro cfg reorder fuel stF hplug hmix hnp hhd hrun
    obtain ⟨unref, stP, _, hprim, _, ext, _, _⟩ := run_ok_inv hplug hmix hrun
    have hP := run_primary_empty_outdex hplug hnp hhd hprim
    obtain ⟨t, ht⟩ := ext.2
    refine ⟨t, ?_⟩
    rw [← ht, hP]
    rfl

/-- The flattened position of the start of bin `i`. -/
def binOffset (bins : List (List DexClass)) (i : Nat) : Nat :=
  ((bins.take i).map List.length).sum

theorem binOffset_succ_cons (b : List DexClass) (bs : List (List DexClass)) (n : Nat) :
    binOffset (b :: bs) (n + 1) = b.length + binOffset bs n := by
  unfold binOffset
  rw [List.take_succ_cons]
  simp

theorem binOffset_succ (bins : List (List DexClass)) :
    ∀ (j : Nat), ∀ hj : j < bins.length,
      binOffset bins (j + 1) = binOffset bins j + bins[j].length := by
  induction bins with
  | nil =>
    intro j hj
    exact absurd hj (by simp)
  | cons b bs ih =>
    intro j hj
    cases j with
    | zero =>
      rw [binOffset_succ_cons]
      simp [binOffset]
    | succ n =>
      have hn : n < bs.length := by simpa using hj
      rw [binOffset_succ_cons, binOffset_succ_cons, ih n hn]
      simp [Nat.add_assoc]

theorem binOffset_mono (bins : List (List DexClass)) :
    ∀ {i j : Nat}, i ≤ j → binOffset bins i ≤ binOffset bins j := by
  induction bins with
  | nil =>
    intro i j _
    simp [binOffset]
  | cons b bs ih =>
    intro i j hij
    cases i with
    | zero => exact Nat.zero_le _
    | succ n =>
      cases j with
      | zero => exact absurd hij (by omega)
      | succ m =>
        rw [binOffset_succ_cons, binOffset_succ_cons]
        exact Nat.add_le_add_left (ih (by omega)) _

theorem flatten_getElem2 (bins : List (List DexClass)) :
    ∀ (i p : Nat) (b : List DexClass), bins[i]? = some b →
    ∀ (x : DexClass), b[p]? = some x →
    bins.flatten[binOffset bins i + p]? = some x := by
  induction bins with
  | nil =>
    intro i p b hb
    simp at hb
  | cons c bs ih =>
    intro i p b hb x hx
    cases i with
    | zero =>
      simp only [List.getElem?_cons_zero, Option.some.injEq] at hb
      subst hb
      obtain ⟨hp, _⟩ := List.getElem?_eq_some.1 hx
      have h0 : binOffset (c :: bs) 0 + p = p := by
        have he : binOffset (c :: bs) 0 = 0 := rfl
        omega
      rw [List.flatten_cons, h0, List.getElem?_append, if_pos hp]
      exact hx
    | succ n =>
      simp only [List.getElem?_cons_succ] at hb
      have hidx : binOffset (c :: bs) (n + 1) + p = c.length + (binOffset bs n + p) := by
        rw [binOffset_succ_cons]
        omega
      rw [List.flatten_cons, hidx, List.getElem?_append, if_neg (by omega),
        Nat.add_sub_cancel_left]
      exact ih n p b hb x hx

theorem nodup_getElem2_inj {l : List DexClass} (hnd : l.Nodup) {a b : Nat} {x : DexClass}
    (ha : l[a]? = some x) (hb : l[b]? = some x) : a = b := by
  obtain ⟨hal, hae⟩ := List.getElem?_eq_some.1 ha
  obtain ⟨hbl, hbe⟩ := List.getElem?_eq_some.1 hb
  have h2 : l.get ⟨a, hal⟩ = l.get ⟨b, hbl⟩ := by
    simp only [List.get_eq_getElem]
    rw [hae, hbe]
  exact congrArg Fin.val ((List.Nodup.get_inj_iff hnd).1 h2)

theorem getElem2_split (u : List DexClass) (c : DexClass) (t : List DexClass) :
    (u ++ c :: t)[u.length]? = some c := by
  rw [List.getElem?_append, if_neg (by omega), Nat.sub_self]
  simp

/-- Flattened position order implies bin-lexicographic order. -/
theorem binOffset_lex {bins : List (List DexClass)} {i p j q : Nat}
    (hi : i < bins.length) (hj : j < bins.length) (hq : q < bins[j].length)
    (hlt : binOffset bins i + p < binOffset bins j + q) :
    i < j ∨ (i = j ∧ p < q) := by
  by_cases hij : i < j
  · exact Or.inl hij
  · push_neg at hij
    by_cases hev : i = j
    · subst hev
      omega
    · have hji : j + 1 ≤ i := by omega
      have h1 : binOffset bins j + q < binOffset bins (j + 1) := by
        rw [binOffset_succ bins j hj]
        omega
      have h2 : binOffset bins (j + 1) ≤ binOffset bins i := binOffset_mono bins hji
      omega

/-- C8: priority order is preserved.  Decompose the priority walk at the
iterations of two entries, the first before the second in the walked order;
any class first placed during the earlier iteration sits before any class
first placed during the later one in the final output: strictly earlier in
the flattened placement, hence in an earlier bin or earlier within the same
bin. -/
theorem c8_priority_order {cfg : InterDexCfg} {unref : Finset Nat} {stP : InterDexSt}
    {l1 l2 l3 : List (Nat × String)} {iA iB : Nat} {eA eB : String}
    {acc1 acc2 acc3 acc4 accF : WalkAcc} {stF : InterDexSt} {cA cB : DexClass}
    (hplug : cfg.plugins = [])
    (hmix : cfg.mixed_mode_info.mixedModeClasses = [])
    (hprim : run_primary cfg cfg.coldstart_list unref
      { det := { clookup := build_clookup cfg.dexen },
        mixed_mode_info := cfg.mixed_mode_info } = .ok stP)
    (henum : (run_iorder cfg).enum = l1 ++ (iA, eA) :: l2 ++ (iB, eB) :: l3)
    (h1 : foldE (walk_step cfg (mk_walk_ctx (run_iorder cfg) unref))
      { st := stP, dconfig := { is_coldstart := decide ((run_iorder cfg).length > 0) },
        previous_dex := stP.secondary_dexes, end_markers_present := false } l1 = .ok acc1)
    (hA : walk_step cfg (mk_walk_ctx (run_iorder cfg) unref) acc1 (iA, eA) = .ok acc2)
    (h2 : foldE (walk_step cfg (mk_walk_ctx (run_iorder cfg) unref)) acc2 l2 = .ok acc3)
    (hB : walk_step cfg (mk_walk_ctx (run_iorder cfg) unref) acc3 (iB, eB) = .ok acc4)
    (h3 : foldE (walk_step cfg (mk_walk_ctx (run_iorder cfg) unref)) acc4 l3 = .ok accF)
    (hpost : run_post_walk cfg (mk_walk_ctx (run_iorder cfg) unref) accF = .ok stF)
    (hcA : cA ∈ flat acc2.st) (hcA1 : cA ∉ flat acc1.st)
    (hcB : cB ∈ flat acc4.st) (hcB3 : cB ∉ flat acc3.st) :
    (∃ u v w, stF.outdex.flatten = u ++ cA :: v ++ cB :: w)
    ∧ ∀ (i p j q : Nat), ∀ hi : i < stF.outdex.length, ∀ hp : p < stF.outdex[i].length,
        ∀ hj : j < stF.outdex.length, ∀ hq : q < stF.outdex[j].length,
        stF.outdex[i][p] = cA → stF.outdex[j][q] = cB →
        i < j ∨ (i = j ∧ p < q) := by
  have invP := run_primary_inv hplug hmix hprim
  obtain ⟨inv1, ext01, _⟩ := foldE_walk_stepok hplug h1 invP
  obtain ⟨inv2, ext12, _⟩ := walk_step_ok hplug inv1 hA inv1
  obtain ⟨inv3, ext23, _⟩ := foldE_walk_stepok hplug h2 inv2
  obtain ⟨inv4, ext34, _⟩ := walk_step_ok hplug inv3 hB inv3
  obtain ⟨invW, ext4F, _⟩ := foldE_walk_stepok hplug h3 inv4
  obtain ⟨invF, extFF, houts, _⟩ := run_post_walk_ok hplug hpost invW
  obtain ⟨e1, he1⟩ := ext12.1
  obtain ⟨m1, hm1⟩ := ext23.1
  obtain ⟨e2, he2⟩ := ext34.1
  obtain ⟨m2, hm2⟩ := (ext4F.trans extFF).1
  have hcAe : cA ∈ e1 := by
    rw [← he1] at hcA
    rcases List.mem_append.1 hcA with h' | h'
    · exact absurd h' hcA1
    · exact h'
  have hcBe : cB ∈ e2 := by
    rw [← he2] at hcB
    rcases List.mem_append.1 hcB with h' | h'
    · exact absurd h' hcB3
    · exact h'
  obtain ⟨p1, q1, he1s⟩ := List.append_of_mem hcAe
  obtain ⟨p2, q2, he2s⟩ := List.append_of_mem hcBe
  have hflatF : flat stF = stF.outdex.flatten := by
    rw [flat, houts, List.append_nil]
  have hsplit : stF.outdex.flatten =
      (flat acc1.st ++ p1) ++ cA :: ((q1 ++ m1) ++ p2) ++ cB :: (q2 ++ m2) := by
    rw [← hflatF, ← hm2, ← he2, ← hm1, ← he1, he1s, he2s]
    simp [List.append_assoc]
  refine ⟨⟨flat acc1.st ++ p1, (q1 ++ m1) ++ p2, q2 ++ m2, hsplit⟩, ?_⟩
  intro i p j q hi hp hj hq hgA hgB
  have hnd : stF.outdex.flatten.Nodup := by
    rw [← hflatF]
    exact invF.nodup
  have hAq : stF.outdex.flatten[binOffset stF.outdex i + p]? = some cA := by
    refine flatten_getElem2 _ i p _ (List.getElem?_eq_getElem hi) cA ?_
    rw [List.getElem?_eq_getElem hp, hgA]
  have hBq : stF.outdex.flatten[binOffset stF.outdex j + q]? = some cB := by
    refine flatten_getElem2 _ j q _ (List.getElem?_eq_getElem hj) cB ?_
    rw [List.getElem?_eq_getElem hq, hgB]
  have hsplitR : stF.outdex.flatten = (flat acc1.st ++ p1) ++
      cA :: (((q1 ++ m1) ++ p2) ++ cB :: (q2 ++ m2)) := by
    rw [hsplit]
    exact List.append_assoc _ _ _
  have hposA : stF.outdex.flatten[(flat acc1.st ++ p1).length]? = some cA := by
    rw [hsplitR]
    exact getElem2_split _ _ _
  have hposB : stF.outdex.flatten[((flat acc1.st ++ p1) ++
      cA :: ((q1 ++ m1) ++ p2)).length]? = some cB := by
    rw [hsplit]
    exact getElem2_split _ _ _
  have heqA := nodup_getElem2_inj hnd hAq hposA
  have heqB := nodup_getElem2_inj hnd hBq hposB
  have hlenlt : (flat acc1.st ++ p1).length <
      ((flat acc1.st ++ p1) ++ cA :: ((q1 ++ m1) ++ p2)).length := by
    simp
  exact binOffset_lex hi hj hq (by omega)

def c8A : DexClass :=
  ⟨81, "LAEight;", false, some "Ljava/lang/Object;", 0, 0, 0, [], [], true, [], []⟩

def c8B : DexClass :=
  ⟨82, "LBEight;", false, some "Ljava/lang/Object;", 0, 0, 0, [], [], true, [], []⟩

def c8WCfg : InterDexCfg :=
  ⟨[[], [c8A, c8B]], ["LAEight;", "LBEight;"], [], 10000, false, false, false, false, {}⟩

def c8StP : InterDexSt :=
  match run_primary c8WCfg c8WCfg.coldstart_list ∅
      { det := { clookup := build_clookup c8WCfg.dexen },
        mixed_mode_info := c8WCfg.mixed_mode_info } with
  | .ok st => st
  | .error _ => {}

def c8Acc0 : WalkAcc :=
  { st := c8StP, dconfig := { is_coldstart := decide ((run_iorder c8WCfg).length > 0) },
    previous_dex := c8StP.secondary_dexes, end_markers_present := false }

def c8Acc2 : WalkAcc :=
  match walk_step c8WCfg (mk_walk_ctx (run_iorder c8WCfg) ∅) c8Acc0 (0, "LAEight;") with
  | .ok a => a
  | .error _ => c8Acc0

def c8Acc4 : WalkAcc :=
  match walk_step c8WCfg (mk_walk_ctx (run_iorder c8WCfg) ∅) c8Acc2 (1, "LBEight;") with
  | .ok a => a
  | .error _ => c8Acc0

def c8StF : InterDexSt :=
  match run_post_walk c8WCfg (mk_walk_ctx (run_iorder c8WCfg) ∅) c8Acc4 with
  | .ok st => st
  | .error _ => {}

theorem c8_priority_order_witness :
    ∃ u v w, c8StF.outdex.flatten = u ++ c8A :: v ++ c8B :: w :=
  (@c8_priority_order c8WCfg ∅ c8StP [] [] [] 0 1 "LAEight;" "LBEight;"
    c8Acc0 c8Acc2 c8Acc2 c8Acc4 c8Acc4 c8StF c8A c8B
    rfl rfl rfl rfl rfl rfl rfl rfl rfl rfl
    (by decide) (by decide) (by decide) (by decide)).1

def c10B : DexClass :=
  ⟨41, "LBTen;", false, some "Ljava/lang/Object;", 0, 0, 0, [], [], true, [], []⟩

def c10WCfg : InterDexCfg :=
  ⟨[[], [c10B]], [], [], 10000, false, false, false, false, {}⟩

def c10WSt : InterDexSt :=
  match run c10WCfg id 10 with
  | some (.ok st) => st
  | _ => {}

/-- C9 (amended): the packer is deterministic in everything except the
pruner's unordered-set iteration order: with static pruning disabled the
pruner is order-blind and two runs with identical configuration produce
identical results whatever iteration orders they see.  With static pruning
enabled the iteration order leaks into the output
(`c9_deterministic_cex`). -/
theorem c9_deterministic_modulo_order (cfg : InterDexCfg)
    (r1 r2 : List DexClass → List DexClass) (fuel : Nat)
    (h : cfg.static_prune_classes = false) :
    run cfg r1 fuel = run cfg r2 fuel := by
  have hf : ∀ r : List DexClass → List DexClass,
      find_unrefenced_coldstart_classes (build_class_scope cfg.dexen)
        (build_clookup cfg.dexen) cfg.coldstart_list cfg.static_prune_classes r fuel
      = some ∅ := by
    intro r
    rw [find_unrefenced_coldstart_classes, h]
    rfl
  unfold run
  rw [hf r1, hf r2]

def c9A : DexClass :=
  ⟨1, "LANine;", false, some "Ljava/lang/Object;", 0, 0, 0, [], [], true, [], [2]⟩

def c9P : DexClass :=
  ⟨2, "LPNine;", false, some "Ljava/lang/Object;", 0, 0, 0, [], [], true, [], []⟩

def c9D : DexClass :=
  ⟨3, "LDNine;", false, some "Ljava/lang/Object;", 0, 0, 0, [], [], false, [], [1]⟩

def c9X : DexClass :=
  ⟨4, "LXNine;", false, some "Ljava/lang/Object;", 0, 0, 0, [], [], true, [], []⟩

def c9CexCfg : InterDexCfg :=
  ⟨[[c9D, c9A, c9X, c9P]], ["LDNine;", "LANine;", "LXNine;", "LPNine;"], [], 10000,
    true, true, false, false, {}⟩

/-- C9 (counterexample): with static pruning enabled, two admissible
iteration orders of the pruner's pointer-keyed `unordered_set` - identity
and reversal - give the same configuration different output bins (the
pruned classes `LPNine;` and `LXNine;` return in a different relative
order), refuting unconditional determinism. -/
theorem c9_deterministic_cex :
    run_bins c9CexCfg id 10 = some [[c9D, c9A, c9P, c9X]]
    ∧ run_bins c9CexCfg List.reverse 10 = some [[c9D, c9A, c9X, c9P]]
    ∧ run_bins c9CexCfg id 10 ≠ run_bins c9CexCfg List.reverse 10 := by
  refine ⟨rfl, rfl, by decide⟩

theorem c9_deterministic_modulo_order_witness :
    c10WCfg.static_prune_classes = false
    ∧ run c10WCfg id 3 = run c10WCfg List.reverse 3 :=
  ⟨rfl, c9_deterministic_modulo_order c10WCfg id List.reverse 3 rfl⟩

def c2CexA : DexClass :=
  ⟨21, "LATwo;", false, some "Ljava/lang/Object;", 0, 0, 0, [], [], true, [], []⟩

def c2CexB : DexClass :=
  ⟨22, "LBTwo;", false, some "Ljava/lang/Object;", 0, 0, 0, [], [], true, [], []⟩

def c2CexCfgU : InterDexCfg :=
  ⟨[[c2CexA], [c2CexB]], [], [], 10000, false, false, true, false, {}⟩

def c2CexCfgN : InterDexCfg :=
  ⟨[[c2CexA], [c2CexB]], [], [], 10000, false, true, true, false, {}⟩

/-- C2 (counterexample): the canary is appended, not prepended - the
secondary bin of a two-dex run ends, and does not begin, with its canary -
and under `normal_primary_dex` the primary bin (bin 0) itself receives a
canary class, refuting both halves of the claim. -/
theorem c2_canary_position_cex :
    run_bins c2CexCfgU id 10 = some [[c2CexA], [c2CexB, make_canary_class (canary_name 1)]]
    ∧ is_canary (make_canary_class (canary_name 1)) = true
    ∧ [c2CexB, make_canary_class (canary_name 1)].head? ≠
        some (make_canary_class (canary_name 1))
    ∧ run_bins c2CexCfgN id 10 = some [[c2CexA, c2CexB, make_canary_class (canary_name 0)]]
    ∧ is_canary (make_canary_class (canary_name 0)) = true := by
  refine ⟨rfl, rfl, by decide, rfl, rfl⟩

theorem c10_empty_bin_guard_witness :
    flush_out_secondary c10WCfg {} {} false = .ok {}
    ∧ (flush_out_dex c10WCfg ({} : InterDexSt)).outdex.length = 1
    ∧ ∃ bins, c10WSt.outdex = [] :: bins :=
  ⟨c10_empty_bin_guard.1 c10WCfg {} {} false rfl,
   c10_empty_bin_guard.2.1 c10WCfg {},
   c10_empty_bin_guard.2.2 c10WCfg id 10 c10WSt rfl rfl rfl rfl rfl⟩

end interdex
